import Mathlib

/-!
Verification development for the multi_battle repository.

The engine embedded here is the deathmatch-capable GameRoom (game-logic module
with modes 'coop', 'deathmatch', 'deathmatch_bots').  Modelling conventions:

* JS numbers are exact rationals (all arithmetic in the engine is exact over
  dyadic rationals, so this is faithful).
* The JS `Infinity` sentinel for lives is `⊤ : WithTop ℤ`; the `Infinity`
  starting value of min-distance folds is `⊤ : WithTop ℚ`.
* `Math.hypot dx dy = √(dx² + dy²)` appears only inside `<` / `min` / `max`
  comparisons between hypot values; since √ is strictly monotone those
  comparisons coincide with the comparisons of the squared values, which is how
  the distance folds are embedded (squared distances in ℚ, avoiding
  irrationals).  Theorems about Euclidean distance are stated with `Real.sqrt`
  and derived from the squared folds by monotonicity.
* JS object references are modelled by stable string identifiers; every
  reachable state has pairwise-distinct ids (socket ids and generated bot ids),
  which the reference-equality checks of the source rely on as well.
* Every `Math.random()` call site consumes one draw from an explicit stream,
  in exactly the order the source performs the calls.
* The map resource (tiles, mode, spawn-point lists) comes from the maps module,
  which the repository consumes as an external resource; the engine is
  parameterised by it.
-/

namespace MultiBattle

set_option maxRecDepth 2000

/-- Tile size in pixels (constant TILE_SIZE = 16). -/
def TILE_SIZE : ℚ := 16

/-- Number of grid columns (constant MAP_COLS = 26). -/
def MAP_COLS : ℤ := 26

/-- Number of grid rows (constant MAP_ROWS = 26). -/
def MAP_ROWS : ℤ := 26

/-- Tank bounding-box side length (constant TANK_SIZE = 14). -/
def TANK_SIZE : ℚ := 14

/-- Bullet speed per tick (constant BULLET_SPEED = 5). -/
def BULLET_SPEED : ℚ := 5

/-- Human tank speed per tick (constant TANK_SPEED = 1.5). -/
def TANK_SPEED : ℚ := 3/2

/-- Bullet bounding-box side length (constant BULLET_SIZE = 4). -/
def BULLET_SIZE : ℚ := 4

/-- Classic mode: maximum simultaneous enemies (constant MAX_ENEMIES = 4). -/
def MAX_ENEMIES : ℤ := 4

/-- Classic mode: total enemy quota (constant TOTAL_ENEMIES = 20). -/
def TOTAL_ENEMIES : ℤ := 20

/-- Deathmatch frag limit (constant DM_FRAG_LIMIT = 20). -/
def DM_FRAG_LIMIT : ℤ := 20

/-- Deathmatch respawn delay in ms (constant DM_RESPAWN_DELAY_MS = 2000). -/
def DM_RESPAWN_DELAY_MS : ℚ := 2000

/-- Number of bots in deathmatch-with-bots mode (constant DM_MAX_BOTS = 4). -/
def DM_MAX_BOTS : ℕ := 4

/-- Classic enemy shoot interval in ms (constant ENEMY_SHOOT_INTERVAL = 2000). -/
def ENEMY_SHOOT_INTERVAL : ℚ := 2000

/-- Classic enemy movement-decision interval in ms (constant ENEMY_MOVE_INTERVAL = 800). -/
def ENEMY_MOVE_INTERVAL : ℚ := 800

/-- Direction code: DIR = { UP: 0, RIGHT: 1, DOWN: 2, LEFT: 3 }. -/
abbrev Dir := Fin 4

/-- DIR.UP. -/
def DIR_UP : Dir := 0

/-- DIR.RIGHT. -/
def DIR_RIGHT : Dir := 1

/-- DIR.DOWN. -/
def DIR_DOWN : Dir := 2

/-- DIR.LEFT. -/
def DIR_LEFT : Dir := 3

/-- Horizontal unit delta per direction (array DX = [0, 1, 0, -1]). -/
def DX : Dir → ℚ := ![0, 1, 0, -1]

/-- Vertical unit delta per direction (array DY = [-1, 0, 1, 0]). -/
def DY : Dir → ℚ := ![-1, 0, 1, 0]

/-- Truncate an integer to a direction code, as produced by
    Math.floor(Math.random() * 4) on in-range draws (total on all inputs). -/
def mkDir (n : ℤ) : Dir := ⟨n.toNat % 4, Nat.mod_lt _ (by norm_num)⟩

/-- The eight tank colors (array PLAYER_COLORS). -/
def PLAYER_COLORS : List String :=
  ["#FFD700", "#00BFFF", "#FF6347", "#98FB98",
   "#FF69B4", "#FFA500", "#00FFFF", "#DA70D6"]

/-- The eight bot display names used by the bot spawner. -/
def BOT_NAMES : List String :=
  ["ROBO-X", "IRON-T", "STEEL-K", "MECH-Q", "CYBER", "METAL", "DREAD", "BLAZE"]

/-- Buffered input intent of a human player (structure: up/down/left/right/shoot). -/
structure Inputs where
  up : Bool
  down : Bool
  left : Bool
  right : Bool
  shoot : Bool
deriving DecidableEq, Repr

instance : Inhabited Inputs := ⟨⟨false, false, false, false, false⟩⟩

/-- The firing team recorded on a bullet: 'player' | 'bot' | 'enemy'. -/
inductive Team where
  | player : Team
  | bot : Team
  | enemy : Team
deriving DecidableEq, Repr

/-- Game mode: 'coop' | 'deathmatch' | 'deathmatch_bots'. -/
inductive Mode where
  | coop : Mode
  | deathmatch : Mode
  | deathmatch_bots : Mode
deriving DecidableEq, Repr

/-- isDM: mode === 'deathmatch' || mode === 'deathmatch_bots'. -/
def Mode.isDM : Mode → Bool
  | .deathmatch => true
  | .deathmatch_bots => true
  | .coop => false

/-- A spawn point in tile coordinates (entries of the spawn-point lists). -/
structure Point where
  x : ℚ
  y : ℚ
deriving DecidableEq, Repr

instance : Inhabited Point := ⟨⟨0, 0⟩⟩

/-- A player or deathmatch bot record (the fields the source stores on them;
    bots carry in addition the AI scratch fields, which exist but stay unused
    on human players). -/
structure Combatant where
  id : String
  name : String
  x : ℚ
  y : ℚ
  dir : Dir
  alive : Bool
  lives : WithTop ℤ
  score : ℤ
  deaths : ℤ
  speed : ℚ
  moving : Bool
  color : String
  shield : ℚ
  bulletCooldown : ℚ
  isBot : Bool
  inputs : Inputs
  moveTimer : ℚ
  shootTimer : ℚ
  targetId : Option String
deriving DecidableEq, Repr

instance : Inhabited Combatant :=
  ⟨{ id := "", name := "", x := 0, y := 0, dir := DIR_UP, alive := false,
     lives := 0, score := 0, deaths := 0, speed := 0, moving := false,
     color := "", shield := 0, bulletCooldown := 0, isBot := false,
     inputs := default, moveTimer := 0, shootTimer := 0, targetId := none }⟩

/-- A classic-mode AI enemy record. -/
structure Enemy where
  id : String
  x : ℚ
  y : ℚ
  dir : Dir
  alive : Bool
  speed : ℚ
  moveTimer : ℚ
  shootTimer : ℚ
  moving : Bool
deriving DecidableEq, Repr

instance : Inhabited Enemy :=
  ⟨{ id := "", x := 0, y := 0, dir := DIR_DOWN, alive := false, speed := 0,
     moveTimer := 0, shootTimer := 0, moving := false }⟩

/-- A live projectile. -/
structure Bullet where
  id : ℕ
  x : ℚ
  y : ℚ
  dir : Dir
  speed : ℚ
  team : Team
  ownerId : String
deriving DecidableEq, Repr

instance : Inhabited Bullet :=
  ⟨{ id := 0, x := 0, y := 0, dir := DIR_UP, speed := 0, team := Team.player,
     ownerId := "" }⟩

/-- An entry of the deathmatch respawn queue; the source stores an object
    reference plus a timer, embedded here as the entity id plus the timer. -/
structure RespawnEntry where
  entityId : String
  timer : ℚ
deriving DecidableEq, Repr

/-- Modelled from the spec: the map resource (the repository's maps module is
    not under src/).  Per the resource contract it provides the initial tile
    grid, the declared mode, the human spawn-point list, the deathmatch
    spawn-point list and the AI spawn-point list. -/
structure MapResource where
  tiles : List ℕ
  mode : Mode
  spawnPoints : List Point
  dmSpawnPoints : List Point
  enemySpawns : List Point
deriving DecidableEq, Repr

/-- The full mutable state of one GameRoom (the constructor fields that affect
    the simulation; the tick-interval handle and wall-clock bookkeeping are
    externalised since tick receives the elapsed time). -/
structure Game where
  mapData : List ℕ
  mode : Mode
  spawnPoints : List Point
  dmSpawnPoints : List Point
  enemySpawns : List Point
  players : List Combatant
  bots : List Combatant
  bullets : List Bullet
  enemies : List Enemy
  nextBulletId : ℕ
  nextEnemyId : ℕ
  nextBotId : ℕ
  enemiesRemaining : ℤ
  enemiesOnField : ℤ
  baseDestroyed : Bool
  fragLimit : ℤ
  gameOver : Bool
  winner : Option String
  winnerId : Option String
  enemySpawnTimer : ℚ
  respawnQueue : List RespawnEntry
deriving DecidableEq, Repr

/-- isDM flag of a room (set in the constructor from the mode). -/
def Game.isDM (g : Game) : Bool := g.mode.isDM

/-- GameRoom constructor: copies the map tiles, records the mode and spawn
    lists, and initialises all counters. -/
def Game.init (res : MapResource) : Game :=
  { mapData := res.tiles
    mode := res.mode
    spawnPoints := res.spawnPoints
    dmSpawnPoints := res.dmSpawnPoints
    enemySpawns := res.enemySpawns
    players := []
    bots := []
    bullets := []
    enemies := []
    nextBulletId := 0
    nextEnemyId := 0
    nextBotId := 0
    enemiesRemaining := if res.mode = Mode.coop then TOTAL_ENEMIES else 0
    enemiesOnField := 0
    baseDestroyed := false
    fragLimit := DM_FRAG_LIMIT
    gameOver := false
    winner := none
    winnerId := none
    enemySpawnTimer := 0
    respawnQueue := [] }

/-- Explicit model of the ambient Math.random() source: a stream of rational
    draws (each in [0,1) at runtime) consumed left to right, one per call. -/
structure RNG where
  stream : ℕ → ℚ
  pos : ℕ

/-- Consume one Math.random() draw. -/
def RNG.next (r : RNG) : ℚ × RNG := (r.stream r.pos, { r with pos := r.pos + 1 })

/-- A reference to a combat entity in the room, standing for the JS object
    reference: the owning collection plus the index within it. -/
inductive EntityRef where
  | player : ℕ → EntityRef
  | bot : ℕ → EntityRef
  | enemy : ℕ → EntityRef
deriving DecidableEq, Repr

/-- Read the x coordinate of a referenced entity. -/
def Game.refX (g : Game) : EntityRef → ℚ
  | .player i => (g.players.getD i default).x
  | .bot i => (g.bots.getD i default).x
  | .enemy i => (g.enemies.getD i default).x

/-- Read the y coordinate of a referenced entity. -/
def Game.refY (g : Game) : EntityRef → ℚ
  | .player i => (g.players.getD i default).y
  | .bot i => (g.bots.getD i default).y
  | .enemy i => (g.enemies.getD i default).y

/-- Read the alive flag of a referenced entity. -/
def Game.refAlive (g : Game) : EntityRef → Bool
  | .player i => (g.players.getD i default).alive
  | .bot i => (g.bots.getD i default).alive
  | .enemy i => (g.enemies.getD i default).alive

/-- Write the position of a referenced entity (entity.x = nx; entity.y = ny). -/
def Game.refSetPos (g : Game) (r : EntityRef) (nx ny : ℚ) : Game :=
  match r with
  | .player i =>
      let p := g.players.getD i default
      { g with players := g.players.set i { p with x := nx, y := ny } }
  | .bot i =>
      let b := g.bots.getD i default
      { g with bots := g.bots.set i { b with x := nx, y := ny } }
  | .enemy i =>
      let e := g.enemies.getD i default
      { g with enemies := g.enemies.set i { e with x := nx, y := ny } }

/-- Whether a reference addresses an existing entity of the room. -/
def Game.refValid (g : Game) : EntityRef → Prop
  | .player i => i < g.players.length
  | .bot i => i < g.bots.length
  | .enemy i => i < g.enemies.length

/-- All entity references of a room, players then bots then enemies (the scan
    order of _collidesWithTanks). -/
def Game.allRefs (g : Game) : List EntityRef :=
  (List.range g.players.length).map EntityRef.player ++
  (List.range g.bots.length).map EntityRef.bot ++
  (List.range g.enemies.length).map EntityRef.enemy

/-- Open-interval AABB intersection of two tank-sized boxes, as tested by
    _collidesWithTanks: nx < ox + TANK_SIZE && nx + TANK_SIZE > ox &&
    ny < oy + TANK_SIZE && ny + TANK_SIZE > oy. -/
def tanksOverlap (nx ny ox oy : ℚ) : Prop :=
  nx < ox + TANK_SIZE ∧ nx + TANK_SIZE > ox ∧ ny < oy + TANK_SIZE ∧ ny + TANK_SIZE > oy

instance (nx ny ox oy : ℚ) : Decidable (tanksOverlap nx ny ox oy) := by
  unfold tanksOverlap; infer_instance

/-- Inclusive integer range [a..b] (empty when b < a), for the covered-cell
    loops. -/
def intRange (a b : ℤ) : List ℤ := (List.range (b - a + 1).toNat).map (a + ·)

/-- Tile-passability set of _collidesWithTiles: passable = {0, 4}. -/
def passableTile (t : ℕ) : Bool := t = 0 || t = 4

/-- Read a tile of the buffer; an index outside the stored buffer reads as 1
    (an impassable material), matching JS undefined, which is not in the
    passable set and is neither brick, steel nor base in the bullet checks
    (those compare against 1, 2, 5; the default 1 is only ever produced after
    an in-grid bounds check on a buffer of full grid size, so it is never hit
    on well-formed rooms). -/
def Game.tileAt (g : Game) (tx ty : ℤ) : ℕ := g.mapData.getD (ty * MAP_COLS + tx).toNat 1

/-- _collidesWithTiles(x, y): the tank box at (x, y) covers some cell that is
    off-grid or holds an impassable material. -/
def Game.collidesWithTiles (g : Game) (x y : ℚ) : Bool :=
  let x1 := ⌊x / TILE_SIZE⌋
  let y1 := ⌊y / TILE_SIZE⌋
  let x2 := ⌊(x + TANK_SIZE - 1) / TILE_SIZE⌋
  let y2 := ⌊(y + TANK_SIZE - 1) / TILE_SIZE⌋
  decide (∃ ty ∈ intRange y1 y2, ∃ tx ∈ intRange x1 x2,
    tx < 0 ∨ ty < 0 ∨ MAP_COLS ≤ tx ∨ MAP_ROWS ≤ ty ∨ passableTile (g.tileAt tx ty) = false)

/-- _collidesWithTanks(entity, nx, ny): the box at (nx, ny) overlaps some other
    live entity (reference inequality other !== entity is reference
    inequality on the collections). -/
def Game.collidesWithTanks (g : Game) (self : EntityRef) (nx ny : ℚ) : Bool :=
  decide (∃ r ∈ g.allRefs, r ≠ self ∧ g.refAlive r = true ∧
    tanksOverlap nx ny (g.refX r) (g.refY r))

/-- _tryMove(entity, dx, dy): compute the target position, reject it when it
    leaves the grid, covers an impassable cell, or overlaps another live
    entity; otherwise commit it. -/
def Game.tryMove (g : Game) (self : EntityRef) (dx dy : ℚ) : Game :=
  let nx := g.refX self + dx
  let ny := g.refY self + dy
  if nx < 0 ∨ ny < 0 ∨ (MAP_COLS : ℚ) * TILE_SIZE < nx + TANK_SIZE ∨
      (MAP_ROWS : ℚ) * TILE_SIZE < ny + TANK_SIZE then g
  else if g.collidesWithTiles nx ny then g
  else if g.collidesWithTanks self nx ny then g
  else g.refSetPos self nx ny

/-- getPlayerCount(). -/
def Game.getPlayerCount (g : Game) : ℕ := g.players.length

/-- getSpawnPoint(idx): the idx-th spawn point modulo the list length, from
    the deathmatch list in DM rooms and the cooperative list otherwise.  (On
    an empty list the source would fault on an undefined read; the embedding
    totalises it with the default point, and every theorem that depends on a
    spawn point carries a nonemptiness hypothesis.) -/
def Game.getSpawnPoint (g : Game) (idx : ℕ) : Point :=
  let pts := if g.isDM then g.dmSpawnPoints else g.spawnPoints
  pts.getD (idx % pts.length) default

/-- addPlayer(socketId, name): append a fresh player at the join-order spawn
    slot; 3 lives in coop, unbounded (⊤) in deathmatch; 3000 ms spawn shield. -/
def Game.addPlayer (g : Game) (socketId name : String) : Game :=
  let idx := g.players.length
  let spawn := g.getSpawnPoint idx
  let p : Combatant :=
    { id := socketId
      name := if name = "" then "Player" ++ toString (idx + 1) else name
      x := spawn.x * TILE_SIZE + 1
      y := spawn.y * TILE_SIZE + 1
      dir := DIR_UP
      alive := true
      lives := if g.isDM then ⊤ else (3 : WithTop ℤ)
      score := 0
      deaths := 0
      speed := TANK_SPEED
      moving := false
      color := PLAYER_COLORS.getD (idx % PLAYER_COLORS.length) ""
      shield := 3000
      bulletCooldown := 0
      isBot := false
      inputs := default
      moveTimer := 0
      shootTimer := 0
      targetId := none }
  { g with players := g.players ++ [p] }

/-- removePlayer(socketId): delete the entry with that key (keys are unique,
    so the filter removes exactly the one player). -/
def Game.removePlayer (g : Game) (socketId : String) : Game :=
  { g with players := g.players.filter fun p => p.id != socketId }

/-- handleInput(socketId, inputs): overwrite the standing input intent of the
    addressed player, a no-op when the player is absent. -/
def Game.handleInput (g : Game) (socketId : String) (inp : Inputs) : Game :=
  { g with players := g.players.map fun p =>
      if p.id = socketId then { p with inputs := inp } else p }

/-- Join-order index of a present player: Object.keys(this.players).indexOf(id)
    (insertion order of the unique keys). -/
def Game.joinIdx (g : Game) (pid : String) : ℕ := g.players.findIdx fun p => p.id == pid

/-- Replace the player record at an index. -/
def Game.setPlayerAt (g : Game) (i : ℕ) (p : Combatant) : Game :=
  { g with players := g.players.set i p }

/-- Replace the bot record at an index. -/
def Game.setBotAt (g : Game) (i : ℕ) (b : Combatant) : Game :=
  { g with bots := g.bots.set i b }

/-- Replace the enemy record at an index. -/
def Game.setEnemyAt (g : Game) (i : ℕ) (e : Enemy) : Game :=
  { g with enemies := g.enemies.set i e }

/-- Mutate the combatant object carrying a given id (JS mutation through an
    object reference; ids are unique across players and bots in every
    reachable state, so this touches at most one record). -/
def Game.mapEntityById (g : Game) (i : String) (f : Combatant → Combatant) : Game :=
  { g with players := g.players.map (fun p => if p.id = i then f p else p)
           bots := g.bots.map (fun b => if b.id = i then f b else b) }

/-- _fireBullet(source, team): spawn one bullet centred on the firer and
    offset half a tank length in the facing direction. -/
def Game.fireBullet (g : Game) (sx sy : ℚ) (sdir : Dir) (sid : String) (team : Team) : Game :=
  let cx := sx + TANK_SIZE / 2
  let cy := sy + TANK_SIZE / 2
  { g with
    bullets := g.bullets ++
      [{ id := g.nextBulletId
         x := cx - BULLET_SIZE / 2 + DX sdir * (TANK_SIZE / 2)
         y := cy - BULLET_SIZE / 2 + DY sdir * (TANK_SIZE / 2)
         dir := sdir
         speed := BULLET_SPEED
         team := team
         ownerId := sid }]
    nextBulletId := g.nextBulletId + 1 }

/-- _bulletHits(b, tank): open-interval AABB intersection of the bullet box
    with a tank box at (tx, ty). -/
def bulletHits (b : Bullet) (tx ty : ℚ) : Prop :=
  b.x < tx + TANK_SIZE ∧ b.x + BULLET_SIZE > tx ∧ b.y < ty + TANK_SIZE ∧ b.y + BULLET_SIZE > ty

instance (b : Bullet) (tx ty : ℚ) : Decidable (bulletHits b tx ty) := by
  unfold bulletHits; infer_instance

/-- The per-tick countdown advance applied to one combatant at the top of
    tick(): a positive shield and a positive fire cooldown each lose dt. -/
def decShieldCooldown (dt : ℚ) (c : Combatant) : Combatant :=
  let c1 := if c.shield > 0 then { c with shield := c.shield - dt } else c
  if c1.bulletCooldown > 0 then { c1 with bulletCooldown := c1.bulletCooldown - dt } else c1

/-- The timers phase of tick(): both loops over players and over bots. -/
def Game.timersPhase (g : Game) (dt : ℚ) : Game :=
  { g with players := g.players.map (decShieldCooldown dt)
           bots := g.bots.map (decShieldCooldown dt) }

/-- Squared Euclidean distance between two points; Math.hypot dx dy is
    √(this value), and every use of hypot in the source occurs under a
    monotone comparison, so the squared form is compared instead. -/
def sqDist (ex ey px py : ℚ) : ℚ := (ex - px) * (ex - px) + (ey - py) * (ey - py)

/-- The living.reduce fold of _dmRespawn: minimum over the living entities of
    the (squared) distance to a candidate spawn pixel, starting at Infinity. -/
def minSqDistTo (living : List Combatant) (px py : ℚ) : WithTop ℚ :=
  living.foldl (fun m e => min m ((sqDist e.x e.y px py : ℚ) : WithTop ℚ)) ⊤

/-- The spawn-point selection of _dmRespawn(entity): start from a random
    point, then scan all points keeping the first one whose minimum (squared)
    distance to the living entities strictly exceeds the running maximum,
    which starts at −1. -/
def dmRespawnChoice (pts : List Point) (living : List Combatant) (r : ℚ) : Point :=
  let best0 := pts.getD (⌊r * pts.length⌋).toNat default
  let sel := pts.foldl
    (fun acc pt =>
      let minDist := minSqDistTo living (pt.x * TILE_SIZE) (pt.y * TILE_SIZE)
      if acc.2 < minDist then (pt, minDist) else acc)
    (best0, ((-1 : ℚ) : WithTop ℚ))
  sel.1

/-- _dmRespawn(entity): place the referenced entity at the selected point,
    revive it and grant the 2000 ms respawn shield. -/
def Game.dmRespawn (g : Game) (entityId : String) (rng : RNG) : Game × RNG :=
  let (r, rng1) := rng.next
  let living := (g.players ++ g.bots).filter fun e => e.alive && (e.id != entityId)
  let best := dmRespawnChoice g.dmSpawnPoints living r
  (g.mapEntityById entityId (fun c =>
      { c with x := best.x * TILE_SIZE + 1, y := best.y * TILE_SIZE + 1,
               alive := true, shield := 2000 }), rng1)

/-- The descending splice loop of _processRespawns, processed here from the
    tail of the list towards the head (the order the source visits entries). -/
def Game.processRespawnsGo (g : Game) (dt : ℚ) (rng : RNG) :
    List RespawnEntry → Game × List RespawnEntry × RNG
  | [] => (g, [], rng)
  | e :: rest =>
      let (g1, rest1, rng1) := g.processRespawnsGo dt rng rest
      let e1 : RespawnEntry := { e with timer := e.timer - dt }
      if e1.timer ≤ 0 then
        let (g2, rng2) := g1.dmRespawn e1.entityId rng1
        (g2, rest1, rng2)
      else
        (g1, e1 :: rest1, rng1)

/-- _processRespawns(dt). -/
def Game.processRespawns (g : Game) (dt : ℚ) (rng : RNG) : Game × RNG :=
  let out := g.processRespawnsGo dt rng g.respawnQueue
  ({ out.1 with respawnQueue := out.2.1 }, out.2.2)

/-- The body of the _updatePlayers loop for the player at index i: honour at
    most one direction (up, down, left, right priority), set the facing before
    the move attempt, set the moving flag regardless of success, then fire
    when requested and off cooldown. -/
def Game.playerStep (g : Game) (i : ℕ) : Game :=
  let p := g.players.getD i default
  if p.alive = false then g
  else
    let g1 :=
      if p.inputs.up then
        (g.setPlayerAt i { p with dir := DIR_UP }).tryMove (.player i) 0 (-p.speed)
      else if p.inputs.down then
        (g.setPlayerAt i { p with dir := DIR_DOWN }).tryMove (.player i) 0 p.speed
      else if p.inputs.left then
        (g.setPlayerAt i { p with dir := DIR_LEFT }).tryMove (.player i) (-p.speed) 0
      else if p.inputs.right then
        (g.setPlayerAt i { p with dir := DIR_RIGHT }).tryMove (.player i) p.speed 0
      else g
    let moved := p.inputs.up || p.inputs.down || p.inputs.left || p.inputs.right
    let p2 := { g1.players.getD i default with moving := moved }
    let g2 := g1.setPlayerAt i p2
    if p2.inputs.shoot && decide (p2.bulletCooldown ≤ 0) then
      (g2.fireBullet p2.x p2.y p2.dir p2.id Team.player).setPlayerAt i
        { p2 with bulletCooldown := 380 }
    else g2

/-- _updatePlayers (dt is unused by the source loop: displacement is per tick,
    not time-scaled). -/
def Game.updatePlayers (g : Game) : Game :=
  (List.range g.players.length).foldl (fun acc i => acc.playerStep i) g

/-- The nearest-target scan of _updateBots: minimum (squared) distance over
    all other living players and bots, starting from Infinity, strict
    comparison so the first-scanned of equidistant targets wins. -/
def nearestTarget (targets : List Combatant) (selfId : String) (sx sy : ℚ) :
    Option Combatant :=
  (targets.foldl
    (fun acc t =>
      if t.id = selfId ∨ t.alive = false then acc
      else
        let d := ((sqDist t.x t.y sx sy : ℚ) : WithTop ℚ)
        match acc with
        | none => some (t, d)
        | some pr => if d < pr.2 then some (t, d) else acc)
    none).map Prod.fst

/-- Dominant-axis aiming used by bots both for chasing and for shooting:
    horizontal when |dx| > |dy| (sign picks right/left), else vertical. -/
def aimDir (dx dy : ℚ) : Dir :=
  if |dx| > |dy| then (if dx > 0 then DIR_RIGHT else DIR_LEFT)
  else (if dy > 0 then DIR_DOWN else DIR_UP)

/-- The body of the _updateBots loop for the bot at index i (skipping dead
    bots): a second countdown decrement for cooldown and shield, the
    nearest-target scan, the interval movement decision (chase with
    probability 0.6, else a uniformly random direction), the move attempt
    with the unstick rotation, and the jittered re-aim-and-fire. -/
def Game.botStep (g : Game) (dt : ℚ) (i : ℕ) (rng : RNG) : Game × RNG :=
  let b := g.bots.getD i default
  if b.alive = false then (g, rng)
  else
    let b := { b with bulletCooldown :=
      if b.bulletCooldown > 0 then b.bulletCooldown - dt else b.bulletCooldown }
    let b := { b with shield := if b.shield > 0 then b.shield - dt else b.shield }
    let g0 := g.setBotAt i b
    let nearest := nearestTarget (g0.players ++ g0.bots) b.id b.x b.y
    let b1 := { b with moveTimer := b.moveTimer + dt }
    let dec :=
      if b1.moveTimer > ENEMY_MOVE_INTERVAL then
        let b1z := { b1 with moveTimer := 0 }
        match nearest with
        | some t =>
            let (r, rngA) := rng.next
            if r < 3/5 then
              ({ b1z with dir := aimDir (t.x - b1z.x) (t.y - b1z.y) }, rngA)
            else
              let (r2, rngB) := rngA.next
              ({ b1z with dir := mkDir ⌊r2 * 4⌋ }, rngB)
        | none =>
            let (r, rngA) := rng.next
            ({ b1z with dir := mkDir ⌊r * 4⌋ }, rngA)
      else (b1, rng)
    let b2 := dec.1
    let rng1 := dec.2
    let g2 := g0.setBotAt i b2
    let g3 := g2.tryMove (.bot i) (DX b2.dir * b2.speed) (DY b2.dir * b2.speed)
    let b3 := g3.bots.getD i default
    let b4 := if b3.x = b2.x ∧ b3.y = b2.y then { b3 with dir := b3.dir + 1 } else b3
    let b5 := { b4 with moving := true }
    let b6 := { b5 with shootTimer := b5.shootTimer + dt }
    let (r3, rng3) := rng1.next
    if decide (b6.shootTimer > 1500 + r3 * 1000) && decide (b6.bulletCooldown ≤ 0) then
      let b7 := { b6 with shootTimer := 0 }
      let b8 :=
        match nearest with
        | some t => { b7 with dir := aimDir (t.x - b7.x) (t.y - b7.y) }
        | none => b7
      let g4 := (g3.setBotAt i b8).fireBullet b8.x b8.y b8.dir b8.id Team.bot
      (g4.setBotAt i { b8 with bulletCooldown := 500 }, rng3)
    else
      (g3.setBotAt i b6, rng3)

/-- _updateBots(dt). -/
def Game.updateBots (g : Game) (dt : ℚ) (rng : RNG) : Game × RNG :=
  (List.range g.bots.length).foldl (fun acc i => acc.1.botStep dt i acc.2) (g, rng)

/-- The body of the _updateClassicEnemies loop for the enemy at index i:
    interval-based weighted random steering (0.4 down, 0.2 left, 0.2 right,
    0.2 up), the move attempt with the unstick rotation, and interval firing. -/
def Game.enemyStep (g : Game) (dt : ℚ) (i : ℕ) (rng : RNG) : Game × RNG :=
  let e := g.enemies.getD i default
  if e.alive = false then (g, rng)
  else
    let e1 := { e with moveTimer := e.moveTimer + dt }
    let dec :=
      if e1.moveTimer > ENEMY_MOVE_INTERVAL then
        let (r, rngA) := rng.next
        let d := if r < 2/5 then DIR_DOWN
                 else if r < 3/5 then DIR_LEFT
                 else if r < 4/5 then DIR_RIGHT
                 else DIR_UP
        ({ e1 with moveTimer := 0, dir := d }, rngA)
      else (e1, rng)
    let e2 := dec.1
    let rng1 := dec.2
    let g2 := g.setEnemyAt i e2
    let g3 := g2.tryMove (.enemy i) (DX e2.dir * e2.speed) (DY e2.dir * e2.speed)
    let e3 := g3.enemies.getD i default
    let e4 := if e3.x = e2.x ∧ e3.y = e2.y then { e3 with dir := e3.dir + 1 } else e3
    let e5 := { e4 with moving := true }
    let e6 := { e5 with shootTimer := e5.shootTimer + dt }
    if e6.shootTimer > ENEMY_SHOOT_INTERVAL then
      let e7 := { e6 with shootTimer := 0 }
      ((g3.setEnemyAt i e7).fireBullet e7.x e7.y e7.dir e7.id Team.enemy, rng1)
    else (g3.setEnemyAt i e6, rng1)

/-- _updateClassicEnemies(dt). -/
def Game.updateClassicEnemies (g : Game) (dt : ℚ) (rng : RNG) : Game × RNG :=
  (List.range g.enemies.length).foldl (fun acc i => acc.1.enemyStep dt i acc.2) (g, rng)

/-- spawnEnemy(): append a classic enemy at the quota-cycled AI spawn point
    with a random initial shoot-timer stagger. -/
def Game.spawnEnemy (g : Game) (rng : RNG) : Game × RNG :=
  if g.enemiesRemaining ≤ 0 then (g, rng)
  else
    let spawnPt := g.enemySpawns.getD (g.nextEnemyId % g.enemySpawns.length) default
    let (r, rng1) := rng.next
    let e : Enemy :=
      { id := "e" ++ toString g.nextEnemyId
        x := spawnPt.x * TILE_SIZE + 1
        y := spawnPt.y * TILE_SIZE + 1
        dir := DIR_DOWN
        alive := true
        speed := 4/5
        moveTimer := 0
        shootTimer := r * 2000
        moving := false }
    ({ g with enemies := g.enemies ++ [e]
              nextEnemyId := g.nextEnemyId + 1
              enemiesOnField := g.enemiesOnField + 1
              enemiesRemaining := g.enemiesRemaining - 1 }, rng1)

/-- One iteration of the _spawnBots loop: the i-th bot, spawn slot offset by
    the current player count, fresh bot id, random movement/shoot stagger. -/
def Game.spawnBot (g : Game) (i : ℕ) (rng : RNG) : Game × RNG :=
  let idx := g.players.length + i
  let spawn := g.getSpawnPoint idx
  let (r1, rng1) := rng.next
  let (r2, rng2) := rng1.next
  let b : Combatant :=
    { id := "bot_" ++ toString g.nextBotId
      name := BOT_NAMES.getD (i % 8) ""
      x := spawn.x * TILE_SIZE + 1
      y := spawn.y * TILE_SIZE + 1
      dir := DIR_DOWN
      alive := true
      lives := ⊤
      score := 0
      deaths := 0
      speed := 1
      moving := false
      color := "#CC2222"
      shield := 2000
      bulletCooldown := 0
      isBot := true
      inputs := default
      moveTimer := r1 * 1000
      shootTimer := r2 * 2000
      targetId := none }
  ({ g with bots := g.bots ++ [b], nextBotId := g.nextBotId + 1 }, rng2)

/-- _spawnBots(): DM_MAX_BOTS bots in ascending index order. -/
def Game.spawnBots (g : Game) (rng : RNG) : Game × RNG :=
  (List.range DM_MAX_BOTS).foldl (fun acc i => acc.1.spawnBot i acc.2) (g, rng)

/-- _hitPlayer(p, killer): decrement lives; with no lives left mark dead,
    otherwise teleport to the join-order coop spawn slot with a 2000 ms
    shield. -/
def Game.hitPlayer (g : Game) (pid : String) : Game :=
  { g with players := g.players.map fun p =>
      if p.id = pid then
        let p1 : Combatant := { p with lives := p.lives.map (· - 1) }
        if p1.lives ≤ (0 : WithTop ℤ) then { p1 with alive := false }
        else
          let idx := g.joinIdx pid
          let spawn := g.spawnPoints.getD (idx % g.spawnPoints.length) default
          { p1 with x := spawn.x * TILE_SIZE + 1, y := spawn.y * TILE_SIZE + 1,
                    shield := 2000 }
      else p }

/-- The descending enemy scan of the coop player-bullet branch: the first
    live, hit enemy counted from the end of the array is removed. -/
def coopEnemyScan (b : Bullet) : List Enemy → Option Enemy × List Enemy
  | [] => (none, [])
  | e :: rest =>
      match coopEnemyScan b rest with
      | (some hit, rest1) => (some hit, e :: rest1)
      | (none, rest1) =>
          if e.alive && decide (bulletHits b e.x e.y) then (some e, rest1)
          else (none, e :: rest1)

/-- _resolveCoopHit(b): enemy bullets hit the first live, unshielded player;
    player bullets remove a live hit enemy and credit the owner 100 points. -/
def Game.resolveCoopHit (g : Game) (b : Bullet) : Game × Bool :=
  if b.team = Team.enemy then
    match g.players.find? (fun p =>
        p.alive && decide (¬ p.shield > 0) && decide (bulletHits b p.x p.y)) with
    | some p => (g.hitPlayer p.id, true)
    | none => (g, false)
  else
    match coopEnemyScan b g.enemies with
    | (some _, enemies1) =>
        let g1 := { g with enemies := enemies1, enemiesOnField := g.enemiesOnField - 1 }
        let g2 := { g1 with players := g1.players.map fun p =>
            if p.id = b.ownerId then { p with score := p.score + 100 } else p }
        (g2, true)
    | (none, _) => (g, false)

/-- Eligibility of a deathmatch hit target: live, not the owner, unshielded,
    and the boxes intersect. -/
def dmEligible (b : Bullet) (t : Combatant) : Bool :=
  t.alive && (t.id != b.ownerId) && decide (¬ t.shield > 0) && decide (bulletHits b t.x t.y)

/-- _dmKill(victim, killer): mark the victim dead with one more death, credit
    the killer one frag when the owner is still present, and enqueue the
    victim for the fixed respawn delay. -/
def Game.dmKill (g : Game) (victimId killerId : String) : Game :=
  let g1 := g.mapEntityById victimId fun c => { c with alive := false, deaths := c.deaths + 1 }
  let killerPresent :=
    (g.players.any fun p => p.id == killerId) || (g.bots.any fun bt => bt.id == killerId)
  let g2 := if killerPresent then g1.mapEntityById killerId (fun c => { c with score := c.score + 1 })
            else g1
  { g2 with respawnQueue := g2.respawnQueue ++
      [{ entityId := victimId, timer := DM_RESPAWN_DELAY_MS }] }

/-- _resolveDMHit(b): the first eligible target over players then bots is
    killed. -/
def Game.resolveDMHit (g : Game) (b : Bullet) : Game × Bool :=
  match (g.players ++ g.bots).find? (dmEligible b) with
  | some t => (g.dmKill t.id b.ownerId, true)
  | none => (g, false)

/-- The per-tick bullet advance: b.x += DX[b.dir] * b.speed and likewise for
    y (the first two statements of the _updateBullets loop body). -/
def movedBullet (b0 : Bullet) : Bullet :=
  { b0 with x := b0.x + DX b0.dir * b0.speed, y := b0.y + DY b0.dir * b0.speed }

/-- The bullet bounds check: b.x < 0 || b.y < 0 || b.x >= MAP_COLS*TILE_SIZE
    || b.y >= MAP_ROWS*TILE_SIZE. -/
def bulletOut (b : Bullet) : Bool :=
  decide (b.x < 0 ∨ b.y < 0 ∨ (MAP_COLS : ℚ) * TILE_SIZE ≤ b.x ∨ (MAP_ROWS : ℚ) * TILE_SIZE ≤ b.y)

/-- Grid column of a bullet's centre. -/
def bulletCellX (b : Bullet) : ℤ := ⌊(b.x + BULLET_SIZE / 2) / TILE_SIZE⌋

/-- Grid row of a bullet's centre. -/
def bulletCellY (b : Bullet) : ℤ := ⌊(b.y + BULLET_SIZE / 2) / TILE_SIZE⌋

/-- The terrain check of the _updateBullets loop on an already-moved bullet:
    brick (1) converts to empty and stops the bullet; steel (2) stops the
    bullet; the base (5) — only in coop mode — converts to empty, marks the
    match over with the enemies as winner, and stops the bullet.  `none`
    means no terrain branch fired and resolution falls through to the
    entity-hit check. -/
def Game.bulletTilePhase (g : Game) (b : Bullet) : Option (Game × Option Bullet) :=
  let tx := bulletCellX b
  let ty := bulletCellY b
  if 0 ≤ tx ∧ 0 ≤ ty ∧ tx < MAP_COLS ∧ ty < MAP_ROWS then
    let idx := (ty * MAP_COLS + tx).toNat
    match g.mapData.get? idx with
    | some 1 => some ({ g with mapData := g.mapData.set idx 0 }, none)
    | some 2 => some (g, none)
    | some 5 =>
        if g.mode = Mode.coop then
          some ({ g with mapData := g.mapData.set idx 0, baseDestroyed := true,
                         gameOver := true, winner := some "enemies" }, none)
        else none
    | _ => none
  else none

/-- One iteration of the _updateBullets loop: advance the bullet, then resolve
    in strict order — grid bounds, terrain at the bullet-centre cell, then the
    per-mode entity hit; `none` means the bullet died this tick. -/
def Game.bulletStep (g : Game) (b0 : Bullet) : Game × Option Bullet :=
  let b := movedBullet b0
  if bulletOut b then (g, none)
  else
    match g.bulletTilePhase b with
    | some out => out
    | none =>
        let hit := if g.isDM then g.resolveDMHit b else g.resolveCoopHit b
        if hit.2 then (hit.1, none) else (hit.1, some b)

/-- The descending splice loop of _updateBullets, processed from the tail of
    the array towards the head (the order the source visits bullets). -/
def Game.updateBulletsGo (g : Game) : List Bullet → Game × List Bullet
  | [] => (g, [])
  | b :: rest =>
      let (g1, rest1) := g.updateBulletsGo rest
      match g1.bulletStep b with
      | (g2, some b2) => (g2, b2 :: rest1)
      | (g2, none) => (g2, rest1)

/-- _updateBullets(). -/
def Game.updateBullets (g : Game) : Game :=
  let out := g.updateBulletsGo g.bullets
  { out.1 with bullets := out.2 }

/-- _checkGameOver(): DM ends at the first participant scanned with the frag
    limit; coop ends when every player is out of lives (with at least one
    player), or when the enemy quota and field are both exhausted. -/
def Game.checkGameOver (g : Game) : Game :=
  if g.gameOver then g
  else if g.isDM then
    match (g.players ++ g.bots).find? (fun c => decide (c.score ≥ g.fragLimit)) with
    | some c => { g with gameOver := true, winner := some c.name, winnerId := some c.id }
    | none => g
  else
    if (g.players.filter fun p => decide (p.lives > 0)).length = 0 ∧ g.players.length ≠ 0 then
      { g with gameOver := true, winner := some "enemies" }
    else if g.enemiesRemaining ≤ 0 ∧ g.enemies.length = 0 then
      { g with gameOver := true, winner := some "players" }
    else g

/-- tick(elapsedMs): the full per-tick pipeline of the source, with the
    elapsed time dt passed in and the ambient randomness threaded explicitly. -/
def Game.tick (g : Game) (dt : ℚ) (rng : RNG) : Game × RNG :=
  if g.gameOver then (g, rng)
  else
    let g1 := g.timersPhase dt
    let a2 := if g1.isDM then g1.processRespawns dt rng else (g1, rng)
    let g3 := a2.1.updatePlayers
    let a4 :=
      if g3.isDM then g3.updateBots dt a2.2
      else
        let g3a := { g3 with enemySpawnTimer := g3.enemySpawnTimer + dt }
        let a3b :=
          if g3a.enemySpawnTimer > 3000 ∧ g3a.enemiesOnField < MAX_ENEMIES ∧
              g3a.enemiesRemaining > 0 then
            let s := g3a.spawnEnemy a2.2
            ({ s.1 with enemySpawnTimer := 0 }, s.2)
          else (g3a, a2.2)
        a3b.1.updateClassicEnemies dt a3b.2
    let g5 := a4.1.updateBullets
    (g5.checkGameOver, a4.2)

/-- start(): coop spawns the first enemy, deathmatch_bots spawns the bots
    (the interval registration itself is external scheduling). -/
def Game.start (g : Game) (rng : RNG) : Game × RNG :=
  if g.mode = Mode.coop then g.spawnEnemy rng
  else if g.mode = Mode.deathmatch_bots then g.spawnBots rng
  else (g, rng)

/-- Public per-combatant snapshot record produced by getState() for players
    and bots (the full field list the source serialises — there is no field
    for the raw shield countdown, the fire cooldown, the buffered input or
    any AI scratch state). -/
structure CombatantView where
  id : String
  name : String
  x : ℚ
  y : ℚ
  dir : Dir
  alive : Bool
  lives : ℤ
  score : ℤ
  deaths : ℤ
  color : String
  shield : Bool
  moving : Bool
  isBot : Bool
deriving DecidableEq, Repr

/-- Public per-enemy snapshot record. -/
structure EnemyView where
  id : String
  x : ℚ
  y : ℚ
  dir : Dir
  alive : Bool
  moving : Bool
deriving DecidableEq, Repr

/-- Public per-bullet snapshot record. -/
structure BulletView where
  id : ℕ
  x : ℚ
  y : ℚ
  dir : Dir
  isEnemy : Bool
  team : Team
deriving DecidableEq, Repr

/-- The full getState() snapshot. -/
structure StateView where
  mode : Mode
  mapData : List ℕ
  players : List CombatantView
  bots : List CombatantView
  enemies : List EnemyView
  bullets : List BulletView
  gameOver : Bool
  winner : Option String
  winnerId : Option String
  enemiesRemaining : ℤ
  enemiesOnField : ℤ
  fragLimit : ℤ
deriving DecidableEq, Repr

/-- The player projection of getState(): finite lives pass through, Infinity
    serialises as −1; shield serialises as the boolean (countdown > 0). -/
def playerView (p : Combatant) : CombatantView :=
  { id := p.id
    name := p.name
    x := p.x
    y := p.y
    dir := p.dir
    alive := p.alive
    lives := p.lives.untop' (-1)
    score := p.score
    deaths := p.deaths
    color := p.color
    shield := decide (p.shield > 0)
    moving := p.moving
    isBot := false }

/-- The bot projection of getState(): lives is always the −1 sentinel. -/
def botView (b : Combatant) : CombatantView :=
  { id := b.id
    name := b.name
    x := b.x
    y := b.y
    dir := b.dir
    alive := b.alive
    lives := -1
    score := b.score
    deaths := b.deaths
    color := b.color
    shield := decide (b.shield > 0)
    moving := b.moving
    isBot := true }

/-- getState(). -/
def Game.getState (g : Game) : StateView :=
  { mode := g.mode
    mapData := g.mapData
    players := g.players.map playerView
    bots := g.bots.map botView
    enemies := g.enemies.map fun e =>
      { id := e.id, x := e.x, y := e.y, dir := e.dir, alive := e.alive, moving := e.moving }
    bullets := g.bullets.map fun b =>
      { id := b.id, x := b.x, y := b.y, dir := b.dir,
        isEnemy := (b.team == Team.enemy) || (b.team == Team.bot), team := b.team }
    gameOver := g.gameOver
    winner := g.winner
    winnerId := g.winnerId
    enemiesRemaining := g.enemiesRemaining
    enemiesOnField := g.enemiesOnField
    fragLimit := g.fragLimit }

/-! Spec-side definitions: statements of the claimed properties in the
    spec's own words, to be compared with the embedded source. -/

/-- The containment invariant of the spec: every live entity's bounding box
    lies within the grid bounds, covers no impassable cell, and overlaps no
    other live entity's bounding box (open-interval AABB intersection) —
    expressed with the source's own collision predicates. -/
def Containment (g : Game) : Prop :=
  ∀ r ∈ g.allRefs, g.refAlive r = true →
    (0 ≤ g.refX r ∧ 0 ≤ g.refY r ∧
      g.refX r + TANK_SIZE ≤ (MAP_COLS : ℚ) * TILE_SIZE ∧
      g.refY r + TANK_SIZE ≤ (MAP_ROWS : ℚ) * TILE_SIZE) ∧
    g.collidesWithTiles (g.refX r) (g.refY r) = false ∧
    g.collidesWithTanks r (g.refX r) (g.refY r) = false

instance (g : Game) : Decidable (Containment g) := by
  unfold Containment; infer_instance

/-- A single application of the countdown rule "a positive countdown loses
    exactly dt": the expected per-tick advance of a shield or cooldown. -/
def dec1 (dt x : ℚ) : ℚ := if x > 0 then x - dt else x

/-- The movement-priority selector in the spec's words: up, then down, then
    left, then right; none when no direction flag is set. -/
def priorityDir (inp : Inputs) : Option Dir :=
  if inp.up then some DIR_UP
  else if inp.down then some DIR_DOWN
  else if inp.left then some DIR_LEFT
  else if inp.right then some DIR_RIGHT
  else none

/-- The three projectile resolution events of the spec, in their fixed
    resolution order. -/
inductive BulletEvent where
  | bounds : BulletEvent
  | terrain : BulletEvent
  | entityHit : BulletEvent
deriving DecidableEq, Repr

/-- Whether the terrain check fires for an (already-moved) bullet: its centre
    cell is on the grid and holds brick, steel, or — in coop mode — the base. -/
def Game.terrainHit (g : Game) (b : Bullet) : Bool :=
  decide (0 ≤ bulletCellX b ∧ 0 ≤ bulletCellY b ∧ bulletCellX b < MAP_COLS ∧
    bulletCellY b < MAP_ROWS ∧
    (g.mapData.get? (bulletCellY b * MAP_COLS + bulletCellX b).toNat = some 1 ∨
     g.mapData.get? (bulletCellY b * MAP_COLS + bulletCellX b).toNat = some 2 ∨
     (g.mapData.get? (bulletCellY b * MAP_COLS + bulletCellX b).toNat = some 5 ∧
       g.mode = Mode.coop)))

/-- The spec's declarative resolution of an (already-moved) bullet: the first
    matching condition in the strict order bounds, terrain, entity hit;
    `none` when the bullet survives the tick. -/
def Game.bulletFate (g : Game) (b : Bullet) : Option BulletEvent :=
  if bulletOut b then some BulletEvent.bounds
  else if g.terrainHit b then some BulletEvent.terrain
  else if (if g.isDM then g.resolveDMHit b else g.resolveCoopHit b).2 then
    some BulletEvent.entityHit
  else none

/-- The state in which the _updateBullets loop processes the bullet at index
    k: all bullets after it (which the descending loop visits first) have
    already been processed. -/
def Game.stateBeforeBullet (g : Game) (k : ℕ) : Game :=
  (g.updateBulletsGo (g.bullets.drop (k + 1))).1

/-- Erase every private field of a combatant that the snapshot must not leak:
    buffered input, the raw fire-cooldown, all AI scratch state, and the raw
    shield countdown (keeping only its sign). -/
def scrubCombatant (c : Combatant) : Combatant :=
  { c with inputs := default, bulletCooldown := 0, moveTimer := 0, shootTimer := 0,
           targetId := none, shield := if c.shield > 0 then 1 else 0 }

/-- Erase all private combatant state of a room. -/
def Game.scrub (g : Game) : Game :=
  { g with players := g.players.map scrubCombatant, bots := g.bots.map scrubCombatant }

/-- Lookup of a combatant (player or bot) by id, players first. -/
def Game.findCombatant (g : Game) (i : String) : Option Combatant :=
  (g.players ++ g.bots).find? fun c => c.id == i

/-! Concrete fixtures: admissible map resources (the spec constrains the
    consumed resource only to provide tiles, mode and spawn lists) and the
    deterministic zero random stream, used for concrete evaluations. -/

/-- The all-zero random stream. -/
def rngZero : RNG := ⟨fun _ => 0, 0⟩

/-- An all-empty 26×26 tile buffer. -/
def emptyTiles : List ℕ := List.replicate 676 0

/-- A deathmatch-with-bots resource with four separated DM spawn points. -/
def resDM : MapResource :=
  { tiles := emptyTiles
    mode := Mode.deathmatch_bots
    spawnPoints := []
    dmSpawnPoints := [⟨1, 1⟩, ⟨10, 1⟩, ⟨1, 10⟩, ⟨10, 10⟩]
    enemySpawns := [] }

/-- A cooperative resource with two distinct spawn slots. -/
def resCoop2 : MapResource :=
  { tiles := emptyTiles
    mode := Mode.coop
    spawnPoints := [⟨0, 0⟩, ⟨3, 3⟩]
    dmSpawnPoints := []
    enemySpawns := [⟨12, 0⟩] }

/-- A cooperative resource with a single spawn slot. -/
def resCoop1 : MapResource :=
  { tiles := emptyTiles
    mode := Mode.coop
    spawnPoints := [⟨0, 0⟩]
    dmSpawnPoints := []
    enemySpawns := [⟨12, 0⟩] }

/-- The deathmatch-with-bots room right after start(): four bots on the field. -/
def gDM : Game × RNG := (Game.init resDM).start rngZero

/-- One tick of 33 ms on the started deathmatch-with-bots room. -/
def gDMtick : Game × RNG := gDM.1.tick 33 gDM.2

/-- Coop room with players A then B. -/
def gAB : Game := ((Game.init resCoop2).addPlayer "A" "Alice").addPlayer "B" "Bob"

/-- The same room after A (a different participant than B) disconnects. -/
def gBonly : Game := gAB.removePlayer "A"

/-- A plain deathmatch resource (no bots). -/
def resDMplain : MapResource :=
  { tiles := emptyTiles
    mode := Mode.deathmatch
    spawnPoints := []
    dmSpawnPoints := [⟨1, 1⟩]
    enemySpawns := [] }

/-- A live, unshielded deathmatch player at (17, 17). -/
def cA : Combatant :=
  { id := "A", name := "A", x := 17, y := 17, dir := DIR_RIGHT, alive := true,
    lives := ⊤, score := 0, deaths := 0, speed := 3/2, moving := false,
    color := "", shield := 0, bulletCooldown := 0, isBot := false,
    inputs := default, moveTimer := 0, shootTimer := 0, targetId := none }

/-- A live, unshielded deathmatch player at (40, 17). -/
def cB : Combatant := { cA with id := "B", x := 40, y := 17 }

/-- A live player at (60, 17) holding a 500 ms shield. -/
def cS : Combatant := { cA with id := "S", x := 60, y := 17, shield := 500 }

/-- A bullet owned by A that, once advanced, overlaps B's box. -/
def bulletAB : Bullet :=
  { id := 0, x := 38, y := 20, dir := DIR_RIGHT, speed := 5, team := Team.player,
    ownerId := "A" }

/-- A bullet owned by A that, once advanced, overlaps only S's (shielded) box. -/
def bulletAS : Bullet :=
  { id := 1, x := 58, y := 20, dir := DIR_RIGHT, speed := 5, team := Team.player,
    ownerId := "A" }

/-- A deathmatch room with three placed players and A's bullet about to reach
    B. -/
def gFix : Game :=
  { Game.init resDMplain with players := [cA, cB, cS], bullets := [bulletAB] }

/-- The same room with a bullet about to reach only the shielded S. -/
def gFixS : Game :=
  { Game.init resDMplain with players := [cA, cB, cS], bullets := [bulletAS] }

/-- A cooperative resource whose cell (4, 1) holds the base material 5. -/
def resBase : MapResource :=
  { tiles := emptyTiles.set 30 5
    mode := Mode.coop
    spawnPoints := [⟨0, 0⟩]
    dmSpawnPoints := []
    enemySpawns := [⟨12, 0⟩] }

/-- A bullet that, once advanced, sits over the base cell (4, 1). -/
def bulletBase : Bullet :=
  { id := 0, x := 61, y := 20, dir := DIR_RIGHT, speed := 5, team := Team.player,
    ownerId := "A" }

/-- The cooperative room holding the base bullet. -/
def gBase : Game := { Game.init resBase with bullets := [bulletBase] }

/-- The score _dmRespawn assigns to a candidate spawn point: the minimum
    (squared) distance from its pixel position to the living entities. -/
def spawnScore (living : List Combatant) (pt : Point) : WithTop ℚ :=
  minSqDistTo living (pt.x * TILE_SIZE) (pt.y * TILE_SIZE)

/-- Agreement of two combatant records on every field a projectile hit could
    damage: life state (alive, deaths, lives), the shield countdown, and the
    position (a cooperative hit also teleports).  The score is deliberately
    not included: a protected combatant may still be credited kills as a
    shooter. -/
def protectedEq (a c : Combatant) : Prop :=
  a.alive = c.alive ∧ a.deaths = c.deaths ∧ a.lives = c.lives ∧
  a.shield = c.shield ∧ a.x = c.x ∧ a.y = c.y

/-- Projection to the two per-tick countdowns of a combatant: the shield and
    the fire cooldown. -/
def cdProj (c : Combatant) : ℚ × ℚ := (c.shield, c.bulletCooldown)

/-- Projection to the countdowns plus the standing buffered inputs — the data
    the movement loop leaves untouched on every player when nobody fires. -/
def frameP (c : Combatant) : ℚ × ℚ × Inputs := (c.shield, c.bulletCooldown, c.inputs)

/-- The second countdown decrement at the top of the _updateBots loop body: a
    positive fire cooldown and a positive shield each lose dt once more. -/
def botCountdown (dt : ℚ) (b : Combatant) : Combatant :=
  let b1 := { b with bulletCooldown :=
    if b.bulletCooldown > 0 then b.bulletCooldown - dt else b.bulletCooldown }
  { b1 with shield := if b1.shield > 0 then b1.shield - dt else b1.shield }

/-- The interval steering decision of the _updateBots loop body: on an expired
    move timer, chase the nearest target with probability 0.6, otherwise turn
    to a uniformly random direction. -/
def botDecide (b1 : Combatant) (nt : Option Combatant) (rng : RNG) : Combatant × RNG :=
  if b1.moveTimer > ENEMY_MOVE_INTERVAL then
    let b1z := { b1 with moveTimer := 0 }
    match nt with
    | some t =>
        let (r, rngA) := rng.next
        if r < 3/5 then
          ({ b1z with dir := aimDir (t.x - b1z.x) (t.y - b1z.y) }, rngA)
        else
          let (r2, rngB) := rngA.next
          ({ b1z with dir := mkDir ⌊r2 * 4⌋ }, rngB)
    | none =>
        let (r, rngA) := rng.next
        ({ b1z with dir := mkDir ⌊r * 4⌋ }, rngA)
  else (b1, rng)

/-- The move-and-shoot tail of the _updateBots loop body: the move attempt
    with the unstick rotation, the moving flag, the shoot-timer advance, and
    the jittered re-aim-and-fire. -/
def botTail (g0 : Game) (dt : ℚ) (i : ℕ) (b2 : Combatant) (nt : Option Combatant)
    (rng1 : RNG) : Game × RNG :=
  let g2 := g0.setBotAt i b2
  let g3 := g2.tryMove (.bot i) (DX b2.dir * b2.speed) (DY b2.dir * b2.speed)
  let b3 := g3.bots.getD i default
  let b4 := if b3.x = b2.x ∧ b3.y = b2.y then { b3 with dir := b3.dir + 1 } else b3
  let b5 := { b4 with moving := true }
  let b6 := { b5 with shootTimer := b5.shootTimer + dt }
  let (r3, rng3) := rng1.next
  if decide (b6.shootTimer > 1500 + r3 * 1000) && decide (b6.bulletCooldown ≤ 0) then
    let b7 := { b6 with shootTimer := 0 }
    let b8 :=
      match nt with
      | some t => { b7 with dir := aimDir (t.x - b7.x) (t.y - b7.y) }
      | none => b7
    let g4 := (g3.setBotAt i b8).fireBullet b8.x b8.y b8.dir b8.id Team.bot
    (g4.setBotAt i { b8 with bulletCooldown := 500 }, rng3)
  else
    (g3.setBotAt i b6, rng3)

/-- A deathmatch-with-bots room right after start() with one joined player
    (idle inputs), used to instantiate the per-tick countdown theorems. -/
def gC1 : Game := gDM.1.addPlayer "P1" "Alice"

/-! Claim theorems. -/

/-- C1, counterexample: in the deathmatch-with-bots room right after start(),
    bot 0 carries the positive 2000 ms spawn shield, the match is not over,
    yet one tick(33) leaves its shield at 1934 = 2000 − 2·33, not at
    2000 − 33: a live deathmatch bot's shield countdown does not decrease by
    exactly the elapsed tick time (it is decremented once in the tick timer
    loop and a second time inside the bot controller), unlike a human
    player's. -/
theorem C1_counterexample_bot_shield :
    (gDM.1.bots.getD 0 default).shield = 2000 ∧
    (gDM.1.bots.getD 0 default).alive = true ∧
    gDM.1.gameOver = false ∧
    gDM.1.respawnQueue = [] ∧
    (gDMtick.1.bots.getD 0 default).shield = 1934 ∧
    ¬ (gDMtick.1.bots.getD 0 default).shield = 2000 - 33 := by
  refine ⟨?_, ?_, ?_, ?_, ?_, ?_⟩
  · with_unfolding_all rfl
  · with_unfolding_all rfl
  · with_unfolding_all rfl
  · with_unfolding_all rfl
  · with_unfolding_all rfl
  · exact of_decide_eq_true (by with_unfolding_all rfl)

/-- C2, counterexample: in a coop room where A joined before B, B's
    cooperative respawn teleports to spawn slot 1 (x = 3·16+1 = 49); after
    removing the different participant A mid-match, the same respawn of B
    teleports to slot 0 (x = 0·16+1 = 1): removing a participant changed the
    spawn slot used for B's subsequent cooperative respawns. -/
theorem C2_counterexample_slot_shift :
    gAB.joinIdx "B" = 1 ∧
    ((gAB.hitPlayer "B").players.getD 1 default).x = 49 ∧
    gBonly.joinIdx "B" = 0 ∧
    ((gBonly.hitPlayer "B").players.getD 0 default).x = 1 ∧
    ((49 : ℚ) ≠ 1) := by
  refine ⟨?_, ?_, ?_, ?_, ?_⟩
  · with_unfolding_all rfl
  · with_unfolding_all rfl
  · with_unfolding_all rfl
  · with_unfolding_all rfl
  · exact of_decide_eq_true (by with_unfolding_all rfl)

/-- C3, counterexample: with two distinct configured spawn points and no
    other live Combatant, the random draw selects index 1 (the second point)
    as the initial candidate, yet the selection still returns the first
    point — for the zero draw as well: the fallback is deterministically the
    first configured point, not a uniformly random one (the random initial
    candidate is always overwritten by the scan). -/
theorem C3_counterexample_fallback_not_random :
    ([(⟨0, 0⟩ : Point), ⟨5, 5⟩].getD (⌊(1/2 : ℚ) * (2 : ℕ)⌋).toNat default = ⟨5, 5⟩) ∧
    dmRespawnChoice [⟨0, 0⟩, ⟨5, 5⟩] [] (1/2) = ⟨0, 0⟩ ∧
    dmRespawnChoice [⟨0, 0⟩, ⟨5, 5⟩] [] 0 = ⟨0, 0⟩ ∧
    ((⟨0, 0⟩ : Point) ≠ ⟨5, 5⟩) := by
  refine ⟨?_, ?_, ?_, ?_⟩
  · with_unfolding_all rfl
  · with_unfolding_all rfl
  · with_unfolding_all rfl
  · exact of_decide_eq_true (by with_unfolding_all rfl)

/-- C4, counterexample: joining two players on a resource with a single coop
    spawn slot places both (live) players at the same position (1, 1)
    immediately after the joins — addPlayer performs no occupancy check — so
    their bounding boxes overlap and the containment invariant is violated
    right after a public operation. -/
theorem C4_counterexample_join_overlap :
    ((((Game.init resCoop1).addPlayer "A" "").addPlayer "B" "").players.getD 0 default).alive
        = true ∧
    ((((Game.init resCoop1).addPlayer "A" "").addPlayer "B" "").players.getD 1 default).alive
        = true ∧
    ((((Game.init resCoop1).addPlayer "A" "").addPlayer "B" "").players.getD 0 default).x
        = ((((Game.init resCoop1).addPlayer "A" "").addPlayer "B" "").players.getD 1 default).x ∧
    ¬ Containment (((Game.init resCoop1).addPlayer "A" "").addPlayer "B" "") := by
  refine ⟨?_, ?_, ?_, ?_⟩
  · with_unfolding_all rfl
  · with_unfolding_all rfl
  · with_unfolding_all rfl
  · exact of_decide_eq_true (by with_unfolding_all rfl)

/-! Helper lemmas: list access and frame facts about the engine operations. -/

theorem listGetD_set_self {α : Type} (l : List α) (i : ℕ) (a d : α) (h : i < l.length) :
    (l.set i a).getD i d = a := by
  simp [List.getD, List.getElem?_set_eq_of_lt a h]

theorem listGetD_set_ne {α : Type} (l : List α) {i j : ℕ} (a : α) (d : α) (h : i ≠ j) :
    (l.set i a).getD j d = l.getD j d := by
  simp [List.getD, List.getElem?_set_ne h]

theorem listGetD_eq_default {α : Type} (l : List α) (i : ℕ) (d : α) (h : l.length ≤ i) :
    l.getD i d = d := by
  simp [List.getD, List.getElem?_eq_none h]

theorem fireBullet_players (g : Game) (sx sy : ℚ) (d : Dir) (sid : String) (t : Team) :
    (g.fireBullet sx sy d sid t).players = g.players := rfl

theorem fireBullet_bots (g : Game) (sx sy : ℚ) (d : Dir) (sid : String) (t : Team) :
    (g.fireBullet sx sy d sid t).bots = g.bots := rfl

theorem setPlayerAt_players (g : Game) (i : ℕ) (p : Combatant) :
    (g.setPlayerAt i p).players = g.players.set i p := rfl

theorem setPlayerAt_bots (g : Game) (i : ℕ) (p : Combatant) :
    (g.setPlayerAt i p).bots = g.bots := rfl

theorem refSetPos_player_players (g : Game) (i : ℕ) (nx ny : ℚ) :
    (g.refSetPos (.player i) nx ny).players
      = g.players.set i { g.players.getD i default with x := nx, y := ny } := rfl

theorem refSetPos_player_bots (g : Game) (i : ℕ) (nx ny : ℚ) :
    (g.refSetPos (.player i) nx ny).bots = g.bots := rfl

/-- A move attempt either rejects (state unchanged) or commits the computed
    target position of the moved entity. -/
theorem tryMove_eq_or (g : Game) (r : EntityRef) (dx dy : ℚ) :
    g.tryMove r dx dy = g ∨
    g.tryMove r dx dy = g.refSetPos r (g.refX r + dx) (g.refY r + dy) := by
  unfold Game.tryMove
  dsimp only
  split_ifs <;> first
    | exact Or.inl rfl
    | exact Or.inr rfl

theorem refSetPos_players_length (g : Game) (r : EntityRef) (nx ny : ℚ) :
    (g.refSetPos r nx ny).players.length = g.players.length := by
  cases r <;> simp [Game.refSetPos]

theorem tryMove_players_length (g : Game) (r : EntityRef) (dx dy : ℚ) :
    (g.tryMove r dx dy).players.length = g.players.length := by
  rcases tryMove_eq_or g r dx dy with h | h <;> rw [h]
  exact refSetPos_players_length ..

/-- C10: getState is a pure projection of the public combatant state — it is
    unchanged when every private field (buffered input, raw fire-cooldown, AI
    scratch timers and target reference) is erased and the raw shield
    countdown is collapsed to its sign; per entry the shield is exactly the
    derived boolean (countdown > 0), a player's lives serialise through the
    −1-for-unbounded sentinel (so ⊤ becomes −1), and a bot's lives are always
    the −1 sentinel. -/
theorem C10_snapshot_privacy :
    (∀ g : Game, g.scrub.getState = g.getState) ∧
    (∀ p : Combatant, (playerView p).shield = decide (p.shield > 0)) ∧
    (∀ p : Combatant, (playerView p).lives = p.lives.untop' (-1)) ∧
    (∀ p : Combatant, (playerView { p with lives := ⊤ }).lives = -1) ∧
    (∀ b : Combatant, (botView b).lives = -1 ∧ (botView b).shield = decide (b.shield > 0)) := by
  refine ⟨?_, fun p => rfl, fun p => rfl, fun p => rfl, fun b => ⟨rfl, rfl⟩⟩
  intro g
  have hp : ∀ c : Combatant, playerView (scrubCombatant c) = playerView c := by
    intro c
    by_cases h : c.shield > 0 <;>
      simp [playerView, scrubCombatant, h]
  have hb : ∀ c : Combatant, botView (scrubCombatant c) = botView c := by
    intro c
    by_cases h : c.shield > 0 <;>
      simp [botView, scrubCombatant, h]
  simp [Game.getState, Game.scrub, hp, hb]

/-- C9: the per-player movement body of _updatePlayers is exactly the spec's
    priority program — at most one direction is honoured per tick, chosen by
    the fixed priority up, down, left, right; the facing is set to the chosen
    direction before the single displacement attempt; and the moving flag is
    set exactly when some direction flag is set, regardless of whether the
    displacement succeeded. -/
theorem C9_movement_priority (g : Game) (i : ℕ)
    (halive : (g.players.getD i default).alive = true) :
    g.playerStep i =
      (let p : Combatant := g.players.getD i default
       let g1 : Game :=
         match priorityDir p.inputs with
         | none => g
         | some d => (g.setPlayerAt i { p with dir := d }).tryMove (.player i)
             (DX d * p.speed) (DY d * p.speed)
       let p2 : Combatant := { g1.players.getD i default with moving := (priorityDir p.inputs).isSome }
       let g2 : Game := g1.setPlayerAt i p2
       if p2.inputs.shoot ∧ p2.bulletCooldown ≤ 0 then
         (g2.fireBullet p2.x p2.y p2.dir p2.id Team.player).setPlayerAt i
           { p2 with bulletCooldown := 380 }
       else g2) := by
  rcases hI : (g.players.getD i default).inputs with ⟨u, dn, lf, rt, sh⟩
  simp only [List.getD_eq_getElem?_getD] at hI halive
  cases u <;> cases dn <;> cases lf <;> cases rt <;>
    simp [Game.playerStep, halive, hI, priorityDir, DX, DY, DIR_UP, DIR_DOWN, DIR_LEFT,
      DIR_RIGHT, zero_mul, one_mul, neg_one_mul]

/-- C9, witness: the priority program equation instantiated on the concrete
    deathmatch room at player index 0 (a live player). -/
theorem C9_movement_priority_witness :
    gFix.playerStep 0 =
      (let p : Combatant := gFix.players.getD 0 default
       let g1 : Game :=
         match priorityDir p.inputs with
         | none => gFix
         | some d => (gFix.setPlayerAt 0 { p with dir := d }).tryMove (.player 0)
             (DX d * p.speed) (DY d * p.speed)
       let p2 : Combatant := { g1.players.getD 0 default with moving := (priorityDir p.inputs).isSome }
       let g2 : Game := g1.setPlayerAt 0 p2
       if p2.inputs.shoot ∧ p2.bulletCooldown ≤ 0 then
         (g2.fireBullet p2.x p2.y p2.dir p2.id Team.player).setPlayerAt 0
           { p2 with bulletCooldown := 380 }
       else g2) :=
  C9_movement_priority gFix 0 (by with_unfolding_all rfl)

theorem dmKill_frame (g : Game) (v k : String) :
    (g.dmKill v k).mapData = g.mapData ∧ (g.dmKill v k).gameOver = g.gameOver ∧
    (g.dmKill v k).winner = g.winner ∧ (g.dmKill v k).baseDestroyed = g.baseDestroyed := by
  unfold Game.dmKill
  dsimp only
  split_ifs <;> simp [Game.mapEntityById]

theorem resolveDMHit_frame (g : Game) (b : Bullet) :
    (g.resolveDMHit b).1.mapData = g.mapData ∧ (g.resolveDMHit b).1.gameOver = g.gameOver ∧
    (g.resolveDMHit b).1.winner = g.winner ∧
    (g.resolveDMHit b).1.baseDestroyed = g.baseDestroyed := by
  unfold Game.resolveDMHit
  cases h : (g.players ++ g.bots).find? (dmEligible b) <;> simp [h, dmKill_frame]

theorem hitPlayer_frame (g : Game) (pid : String) :
    (g.hitPlayer pid).mapData = g.mapData ∧ (g.hitPlayer pid).gameOver = g.gameOver ∧
    (g.hitPlayer pid).winner = g.winner ∧ (g.hitPlayer pid).baseDestroyed = g.baseDestroyed := by
  simp [Game.hitPlayer]

theorem resolveCoopHit_frame (g : Game) (b : Bullet) :
    (g.resolveCoopHit b).1.mapData = g.mapData ∧ (g.resolveCoopHit b).1.gameOver = g.gameOver ∧
    (g.resolveCoopHit b).1.winner = g.winner ∧
    (g.resolveCoopHit b).1.baseDestroyed = g.baseDestroyed := by
  unfold Game.resolveCoopHit
  split_ifs with ht
  · cases h : g.players.find? (fun p =>
        p.alive && decide (¬ p.shield > 0) && decide (bulletHits b p.x p.y)) <;>
      simp [h, hitPlayer_frame]
  · cases h : coopEnemyScan b g.enemies with
    | mk fst snd => cases fst <;> simp [h]

/-- C8: when a moved projectile's centre cell is on the grid and holds the
    objective-structure material 5, then in cooperative mode the bullet step
    converts that cell to empty, marks the match terminal with the AI side
    ("enemies") as winner, records the base destruction and destroys the
    projectile, all in the same step; in the non-cooperative modes the
    terrain branch is gated off — the grid, the terminal flag, the winner and
    the base-destroyed flag are all left unchanged by the step. -/
theorem C8_base_destruction (g : Game) (b0 : Bullet)
    (hin : bulletOut (movedBullet b0) = false)
    (hcell : 0 ≤ bulletCellX (movedBullet b0) ∧ 0 ≤ bulletCellY (movedBullet b0) ∧
      bulletCellX (movedBullet b0) < MAP_COLS ∧ bulletCellY (movedBullet b0) < MAP_ROWS)
    (htile : g.mapData.get?
        (bulletCellY (movedBullet b0) * MAP_COLS + bulletCellX (movedBullet b0)).toNat
      = some 5) :
    (g.mode = Mode.coop →
      g.bulletStep b0 =
        ({ g with
            mapData := g.mapData.set
              (bulletCellY (movedBullet b0) * MAP_COLS + bulletCellX (movedBullet b0)).toNat 0
            baseDestroyed := true
            gameOver := true
            winner := some "enemies" }, none)) ∧
    (g.mode ≠ Mode.coop →
      (g.bulletStep b0).1.mapData = g.mapData ∧
      (g.bulletStep b0).1.gameOver = g.gameOver ∧
      (g.bulletStep b0).1.winner = g.winner ∧
      (g.bulletStep b0).1.baseDestroyed = g.baseDestroyed) := by
  have hc : (0 ≤ bulletCellX (movedBullet b0) ∧ 0 ≤ bulletCellY (movedBullet b0) ∧
      bulletCellX (movedBullet b0) < MAP_COLS ∧ bulletCellY (movedBullet b0) < MAP_ROWS)
      = True := by simp [hcell]
  have htile2 := htile
  rw [List.get?_eq_getElem?] at htile2
  constructor
  · intro hm
    unfold Game.bulletStep Game.bulletTilePhase
    simp [hin, hc, htile2, hm]
  · intro hm
    unfold Game.bulletStep Game.bulletTilePhase
    simp only [hin, Bool.false_eq_true, if_false, hc, if_true, htile]
    simp only [if_neg hm]
    have hdm : g.isDM = true := by
      cases hmode : g.mode <;> simp [Game.isDM, Mode.isDM, hmode] <;> exact absurd hmode hm
    simp only [hdm, if_true]
    rcases hres : g.resolveDMHit (movedBullet b0) with ⟨g2, dead⟩
    have hfr := resolveDMHit_frame g (movedBullet b0)
    rw [hres] at hfr
    cases dead <;> exact ⟨hfr.1, hfr.2.1, hfr.2.2.1, hfr.2.2.2⟩

theorem sqDist_nonneg (ex ey px py : ℚ) : 0 ≤ sqDist ex ey px py :=
  add_nonneg (mul_self_nonneg _) (mul_self_nonneg _)

theorem foldlMin_le_init {α : Type} (h : α → ℚ) :
    ∀ (l : List α) (init : WithTop ℚ),
      l.foldl (fun m e => min m ((h e : ℚ) : WithTop ℚ)) init ≤ init := by
  intro l
  induction l with
  | nil => intro init; exact le_refl _
  | cons e rest ih =>
      intro init
      exact le_trans (ih (min init (h e))) (min_le_left _ _)

theorem foldlMin_le_mem {α : Type} (h : α → ℚ) :
    ∀ (l : List α) (init : WithTop ℚ) (e : α), e ∈ l →
      l.foldl (fun m e => min m ((h e : ℚ) : WithTop ℚ)) init ≤ ((h e : ℚ) : WithTop ℚ) := by
  intro l
  induction l with
  | nil => intro init e he; exact absurd he (List.not_mem_nil e)
  | cons a rest ih =>
      intro init e he
      rcases List.mem_cons.1 he with rfl | he
      · exact le_trans (foldlMin_le_init h rest (min init (h e))) (min_le_right _ _)
      · exact ih (min init (h a)) e he

theorem foldlMin_attained {α : Type} (h : α → ℚ) :
    ∀ (l : List α) (init : WithTop ℚ),
      l.foldl (fun m e => min m ((h e : ℚ) : WithTop ℚ)) init = init ∨
      ∃ e ∈ l, l.foldl (fun m e => min m ((h e : ℚ) : WithTop ℚ)) init = ((h e : ℚ) : WithTop ℚ) := by
  intro l
  induction l with
  | nil => intro init; exact Or.inl rfl
  | cons a rest ih =>
      intro init
      rcases ih (min init (h a)) with heq | ⟨e, he, heq⟩
      · rcases min_cases init ((h a : ℚ) : WithTop ℚ) with ⟨hm, _⟩ | ⟨hm, _⟩
        · exact Or.inl (by rw [List.foldl_cons, heq, hm])
        · exact Or.inr ⟨a, List.mem_cons_self a rest, by rw [List.foldl_cons, heq, hm]⟩
      · exact Or.inr ⟨e, List.mem_cons_of_mem a he, heq⟩

theorem minSqDistTo_nonneg (living : List Combatant) (px py : ℚ) :
    0 ≤ minSqDistTo living px py := by
  have : ∀ (l : List Combatant) (init : WithTop ℚ), 0 ≤ init →
      0 ≤ l.foldl (fun m e => min m ((sqDist e.x e.y px py : ℚ) : WithTop ℚ)) init := by
    intro l
    induction l with
    | nil => intro init h0; exact h0
    | cons a rest ih =>
        intro init h0
        refine ih _ (le_min h0 ?_)
        exact_mod_cast sqDist_nonneg a.x a.y px py
  exact this living ⊤ le_top

theorem minSqDistTo_le (living : List Combatant) (px py : ℚ) (e : Combatant)
    (he : e ∈ living) :
    minSqDistTo living px py ≤ ((sqDist e.x e.y px py : ℚ) : WithTop ℚ) :=
  foldlMin_le_mem (fun e => sqDist e.x e.y px py) living ⊤ e he

theorem minSqDistTo_attained (living : List Combatant) (px py : ℚ)
    (hne : living ≠ []) :
    ∃ e ∈ living, minSqDistTo living px py = ((sqDist e.x e.y px py : ℚ) : WithTop ℚ) := by
  rcases foldlMin_attained (fun e => sqDist e.x e.y px py) living ⊤ with heq | h
  · rcases List.exists_mem_of_ne_nil living hne with ⟨e0, he0⟩
    have hle := minSqDistTo_le living px py e0 he0
    rw [show minSqDistTo living px py
        = living.foldl (fun m e => min m ((sqDist e.x e.y px py : ℚ) : WithTop ℚ)) ⊤ from rfl,
      heq] at hle
    exact absurd hle (by simp)
  · exact h

/-- The best-point scan of _dmRespawn, factored over an arbitrary score
    function: starting from any candidate with running maximum −1, the fold
    returns a pair (best, bestScore) with bestScore = f best, and best is
    either the untouched initial candidate (when nothing beat −1) or the
    earliest element of the list whose score strictly exceeds everything
    before it and is maximal overall. -/
theorem selFold_committed (f : Point → WithTop ℚ) :
    ∀ (l : List Point) (b : Point) (m : WithTop ℚ), f b = m →
      f (l.foldl (fun acc pt => if acc.2 < f pt then (pt, f pt) else acc) (b, m)).1
        = (l.foldl (fun acc pt => if acc.2 < f pt then (pt, f pt) else acc) (b, m)).2 ∧
      (((l.foldl (fun acc pt => if acc.2 < f pt then (pt, f pt) else acc) (b, m)) = (b, m) ∧
          ∀ q ∈ l, f q ≤ m) ∨
        (∃ l1 l2, l = l1 ++
            (l.foldl (fun acc pt => if acc.2 < f pt then (pt, f pt) else acc) (b, m)).1 :: l2 ∧
          (∀ q ∈ l1, f q <
            (l.foldl (fun acc pt => if acc.2 < f pt then (pt, f pt) else acc) (b, m)).2) ∧
          m < (l.foldl (fun acc pt => if acc.2 < f pt then (pt, f pt) else acc) (b, m)).2 ∧
          ∀ q ∈ l, f q ≤
            (l.foldl (fun acc pt => if acc.2 < f pt then (pt, f pt) else acc) (b, m)).2)) := by
  intro l
  induction l with
  | nil =>
      intro b m hfb
      exact ⟨hfb, Or.inl ⟨rfl, fun q hq => absurd hq (List.not_mem_nil q)⟩⟩
  | cons pt rest ih =>
      intro b m hfb
      by_cases hlt : m < f pt
      · have hstep : (List.foldl (fun acc pt => if acc.2 < f pt then (pt, f pt) else acc)
            (b, m) (pt :: rest))
            = List.foldl (fun acc pt => if acc.2 < f pt then (pt, f pt) else acc)
              (pt, f pt) rest := by
          simp [hlt]
        rw [hstep]
        rcases ih pt (f pt) rfl with ⟨hf, hA | hB⟩
        · refine ⟨hf, Or.inr ⟨[], rest, ?_, ?_, ?_, ?_⟩⟩
          · rw [hA.1]; rfl
          · intro q hq; exact absurd hq (List.not_mem_nil q)
          · rw [hA.1]; exact hlt
          · intro q hq
            rw [hA.1]
            rcases List.mem_cons.1 hq with rfl | hq
            · exact le_refl _
            · exact hA.2 q hq
        · rcases hB with ⟨l1, l2, hsplit, hbefore, hm2, hall⟩
          refine ⟨hf, Or.inr ⟨pt :: l1, l2, ?_, ?_, ?_, ?_⟩⟩
          · rw [List.cons_append, ← hsplit]
          · intro q hq
            rcases List.mem_cons.1 hq with rfl | hq
            · exact hm2
            · exact hbefore q hq
          · exact lt_trans hlt hm2
          · intro q hq
            rcases List.mem_cons.1 hq with rfl | hq
            · exact le_of_lt hm2
            · exact hall q hq
      · have hstep : (List.foldl (fun acc pt => if acc.2 < f pt then (pt, f pt) else acc)
            (b, m) (pt :: rest))
            = List.foldl (fun acc pt => if acc.2 < f pt then (pt, f pt) else acc) (b, m) rest := by
          simp [hlt]
        rw [hstep]
        rcases ih b m hfb with ⟨hf, hA | hB⟩
        · refine ⟨hf, Or.inl ⟨hA.1, ?_⟩⟩
          intro q hq
          rcases List.mem_cons.1 hq with rfl | hq
          · exact not_lt.1 hlt
          · exact hA.2 q hq
        · rcases hB with ⟨l1, l2, hsplit, hbefore, hm2, hall⟩
          refine ⟨hf, Or.inr ⟨pt :: l1, l2, ?_, ?_, ?_, ?_⟩⟩
          · rw [List.cons_append, ← hsplit]
          · intro q hq
            rcases List.mem_cons.1 hq with rfl | hq
            · exact lt_of_le_of_lt (not_lt.1 hlt) hm2
            · exact hbefore q hq
          · exact hm2
          · intro q hq
            rcases List.mem_cons.1 hq with rfl | hq
            · exact le_trans (not_lt.1 hlt) (le_of_lt hm2)
            · exact hall q hq

/-- C8, witness: the concrete cooperative room gBase, whose bullet advances
    onto the base cell (4, 1), instantiating the cooperative half. -/
theorem C8_base_destruction_witness :
    gBase.mode = Mode.coop ∧
    gBase.bulletStep bulletBase =
      ({ gBase with
          mapData := gBase.mapData.set
            (bulletCellY (movedBullet bulletBase) * MAP_COLS +
              bulletCellX (movedBullet bulletBase)).toNat 0
          baseDestroyed := true
          gameOver := true
          winner := some "enemies" }, none) := by
  constructor
  · rfl
  · exact (C8_base_destruction gBase bulletBase (by with_unfolding_all rfl)
      (by refine ⟨?_, ?_, ?_, ?_⟩ <;> exact of_decide_eq_true (by with_unfolding_all rfl))
      (by with_unfolding_all rfl)).1 rfl

theorem mem_of_split {α : Type} (l l1 l2 : List α) (x : α) (h : l = l1 ++ x :: l2) :
    x ∈ l := by
  rw [h]; exact List.mem_append_right l1 (List.mem_cons_self x l2)

theorem dmRespawnChoice_def (pts : List Point) (living : List Combatant) (r : ℚ) :
    dmRespawnChoice pts living r
      = (pts.foldl (fun acc pt =>
          if acc.2 < spawnScore living pt then (pt, spawnScore living pt) else acc)
          (pts.getD (⌊r * pts.length⌋).toNat default, ((-1 : ℚ) : WithTop ℚ))).1 := rfl

theorem neg_one_lt_spawnScore (living : List Combatant) (pt : Point) :
    ((-1 : ℚ) : WithTop ℚ) < spawnScore living pt :=
  lt_of_lt_of_le (by exact_mod_cast (by norm_num : (-1 : ℚ) < 0))
    (minSqDistTo_nonneg living (pt.x * TILE_SIZE) (pt.y * TILE_SIZE))

/-- C3, amended: whenever there is at least one configured deathmatch spawn
    point, the dequeued respawn is placed at a configured point whose minimum
    (squared) distance to the other currently-live Combatants is maximal over
    all configured points — equivalently maximal in Euclidean distance, as
    stated in the final clause through √ of the squared distance — and
    specifically at the EARLIEST such point in the configured list (every
    earlier point scores strictly less); in particular when no other live
    Combatant exists the first configured point is chosen.  (Ties and the
    no-living fallback are deterministic, not uniformly random: the random
    initial candidate is always overwritten.) -/
theorem C3_dmRespawn_first_maxmin (pts : List Point) (living : List Combatant) (r : ℚ)
    (hne : pts ≠ []) :
    dmRespawnChoice pts living r ∈ pts ∧
    (∀ pt ∈ pts, spawnScore living pt ≤ spawnScore living (dmRespawnChoice pts living r)) ∧
    (∃ l1 l2, pts = l1 ++ dmRespawnChoice pts living r :: l2 ∧
      ∀ q ∈ l1, spawnScore living q < spawnScore living (dmRespawnChoice pts living r)) ∧
    (living = [] → dmRespawnChoice pts living r = pts.head hne) ∧
    (∀ pt ∈ pts, ∀ e ∈ living, ∃ e2 ∈ living,
      Real.sqrt ((sqDist e2.x e2.y (pt.x * TILE_SIZE) (pt.y * TILE_SIZE) : ℚ) : ℝ) ≤
      Real.sqrt ((sqDist e.x e.y ((dmRespawnChoice pts living r).x * TILE_SIZE)
        ((dmRespawnChoice pts living r).y * TILE_SIZE) : ℚ) : ℝ)) := by
  obtain ⟨pt0, rest, rfl⟩ : ∃ pt0 rest, pts = pt0 :: rest := by
    cases pts with
    | nil => exact absurd rfl hne
    | cons a l => exact ⟨a, l, rfl⟩
  have hstep0 : dmRespawnChoice (pt0 :: rest) living r
      = (rest.foldl (fun acc pt =>
          if acc.2 < spawnScore living pt then (pt, spawnScore living pt) else acc)
          (pt0, spawnScore living pt0)).1 := by
    rw [dmRespawnChoice_def, List.foldl_cons, if_pos (neg_one_lt_spawnScore living pt0)]
  have key := selFold_committed (spawnScore living) rest pt0 (spawnScore living pt0) rfl
  rcases key with ⟨hf, hA | hB⟩
  · -- nothing in the tail beat the head: the head is chosen
    have hc : dmRespawnChoice (pt0 :: rest) living r = pt0 := by
      rw [hstep0, hA.1]
    have hmax : ∀ pt ∈ pt0 :: rest,
        spawnScore living pt ≤ spawnScore living (dmRespawnChoice (pt0 :: rest) living r) := by
      intro pt hpt
      rw [hc]
      rcases List.mem_cons.1 hpt with rfl | hpt
      · exact le_refl _
      · exact hA.2 pt hpt
    refine ⟨?_, hmax, ⟨[], rest, ?_, ?_⟩, ?_, ?_⟩
    · rw [hc]; exact List.mem_cons_self pt0 rest
    · rw [hc]; rfl
    · intro q hq; exact absurd hq (List.not_mem_nil q)
    · intro _; rw [hc]; rfl
    · intro pt hpt e he
      have h1 := hmax pt hpt
      have h2 := minSqDistTo_le living
        ((dmRespawnChoice (pt0 :: rest) living r).x * TILE_SIZE)
        ((dmRespawnChoice (pt0 :: rest) living r).y * TILE_SIZE) e he
      have h3 : spawnScore living pt ≤
          ((sqDist e.x e.y ((dmRespawnChoice (pt0 :: rest) living r).x * TILE_SIZE)
            ((dmRespawnChoice (pt0 :: rest) living r).y * TILE_SIZE) : ℚ) : WithTop ℚ) :=
        le_trans h1 h2
      obtain ⟨e2, he2, heq⟩ := minSqDistTo_attained living (pt.x * TILE_SIZE)
        (pt.y * TILE_SIZE) (List.ne_nil_of_mem he)
      refine ⟨e2, he2, ?_⟩
      apply Real.sqrt_le_sqrt
      have h3a : minSqDistTo living (pt.x * TILE_SIZE) (pt.y * TILE_SIZE) ≤
          ((sqDist e.x e.y ((dmRespawnChoice (pt0 :: rest) living r).x * TILE_SIZE)
            ((dmRespawnChoice (pt0 :: rest) living r).y * TILE_SIZE) : ℚ) : WithTop ℚ) := h3
      rw [heq] at h3a
      have h4 : (sqDist e2.x e2.y (pt.x * TILE_SIZE) (pt.y * TILE_SIZE) : ℚ) ≤
          sqDist e.x e.y ((dmRespawnChoice (pt0 :: rest) living r).x * TILE_SIZE)
            ((dmRespawnChoice (pt0 :: rest) living r).y * TILE_SIZE) := by
        exact_mod_cast h3a
      exact_mod_cast h4
  · rcases hB with ⟨l1, l2, hsplit, hbefore, hm2, hall⟩
    have hc : dmRespawnChoice (pt0 :: rest) living r
        = (rest.foldl (fun acc pt =>
            if acc.2 < spawnScore living pt then (pt, spawnScore living pt) else acc)
            (pt0, spawnScore living pt0)).1 := hstep0
    have hfc : spawnScore living (dmRespawnChoice (pt0 :: rest) living r)
        = (rest.foldl (fun acc pt =>
            if acc.2 < spawnScore living pt then (pt, spawnScore living pt) else acc)
            (pt0, spawnScore living pt0)).2 := by rw [hc]; exact hf
    have hmax : ∀ pt ∈ pt0 :: rest,
        spawnScore living pt ≤ spawnScore living (dmRespawnChoice (pt0 :: rest) living r) := by
      intro pt hpt
      rw [hfc]
      rcases List.mem_cons.1 hpt with rfl | hpt
      · exact le_of_lt hm2
      · exact hall pt hpt
    refine ⟨?_, hmax, ⟨pt0 :: l1, l2, ?_, ?_⟩, ?_, ?_⟩
    · rw [hc]
      exact List.mem_cons_of_mem pt0 (mem_of_split rest l1 l2 _ hsplit)
    · rw [List.cons_append]
      rw [hc]
      rw [← hsplit]
    · intro q hq
      rw [hfc]
      rcases List.mem_cons.1 hq with rfl | hq
      · exact hm2
      · exact hbefore q hq
    · intro hliv
      exfalso
      have hq0 : ∀ q : Point, spawnScore living q = ⊤ := by
        intro q; rw [hliv]; rfl
      have := hm2
      rw [hq0 pt0] at this
      exact absurd (lt_of_lt_of_le this le_top) (lt_irrefl ⊤)
    · intro pt hpt e he
      have h1 := hmax pt hpt
      have h2 := minSqDistTo_le living
        ((dmRespawnChoice (pt0 :: rest) living r).x * TILE_SIZE)
        ((dmRespawnChoice (pt0 :: rest) living r).y * TILE_SIZE) e he
      have h3 : spawnScore living pt ≤
          ((sqDist e.x e.y ((dmRespawnChoice (pt0 :: rest) living r).x * TILE_SIZE)
            ((dmRespawnChoice (pt0 :: rest) living r).y * TILE_SIZE) : ℚ) : WithTop ℚ) :=
        le_trans h1 h2
      obtain ⟨e2, he2, heq⟩ := minSqDistTo_attained living (pt.x * TILE_SIZE)
        (pt.y * TILE_SIZE) (List.ne_nil_of_mem he)
      refine ⟨e2, he2, ?_⟩
      apply Real.sqrt_le_sqrt
      have h3a : minSqDistTo living (pt.x * TILE_SIZE) (pt.y * TILE_SIZE) ≤
          ((sqDist e.x e.y ((dmRespawnChoice (pt0 :: rest) living r).x * TILE_SIZE)
            ((dmRespawnChoice (pt0 :: rest) living r).y * TILE_SIZE) : ℚ) : WithTop ℚ) := h3
      rw [heq] at h3a
      have h4 : (sqDist e2.x e2.y (pt.x * TILE_SIZE) (pt.y * TILE_SIZE) : ℚ) ≤
          sqDist e.x e.y ((dmRespawnChoice (pt0 :: rest) living r).x * TILE_SIZE)
            ((dmRespawnChoice (pt0 :: rest) living r).y * TILE_SIZE) := by
        exact_mod_cast h3a
      exact_mod_cast h4

/-- C3, witness: the amended max-min selection instantiated on a two-point
    configuration with one living combatant, discharging the nonemptiness
    hypothesis. -/
theorem C3_dmRespawn_first_maxmin_witness :
    dmRespawnChoice [(⟨1, 1⟩ : Point), ⟨10, 10⟩] [cA] (1/2) ∈
      [(⟨1, 1⟩ : Point), ⟨10, 10⟩] ∧
    ∀ pt ∈ [(⟨1, 1⟩ : Point), ⟨10, 10⟩],
      spawnScore [cA] pt ≤ spawnScore [cA] (dmRespawnChoice [(⟨1, 1⟩ : Point), ⟨10, 10⟩] [cA] (1/2)) := by
  have h := C3_dmRespawn_first_maxmin [(⟨1, 1⟩ : Point), ⟨10, 10⟩] [cA] (1/2)
    (by exact of_decide_eq_true (by with_unfolding_all rfl))
  exact ⟨h.1, h.2.1⟩

theorem findIdx_filter_remove (pid other : String) (hne : other ≠ pid) :
    ∀ (l : List Combatant), (l.map Combatant.id).Nodup → (∃ p ∈ l, p.id = pid) →
      (l.filter (fun p => p.id != other)).findIdx (fun p => p.id == pid)
        = l.findIdx (fun p => p.id == pid) -
            (if l.findIdx (fun p => p.id == other) < l.findIdx (fun p => p.id == pid)
             then 1 else 0) := by
  intro l
  induction l with
  | nil =>
      intro _ hpid
      rcases hpid with ⟨p, hp, _⟩
      exact absurd hp (List.not_mem_nil p)
  | cons p rest ih =>
      intro hnodup hpid
      by_cases hp : p.id = pid
      · have hkeep : (p.id != other) = true := by
          simp [bne_iff_ne, hp]
          exact fun h => hne h.symm
        rw [List.filter_cons, if_pos hkeep]
        rw [List.findIdx_cons, List.findIdx_cons, List.findIdx_cons]
        have hob : (p.id == other) = false := by
          simp [hp]
          exact fun h => hne h.symm
        have hpb : (p.id == pid) = true := by simp [hp]
        rw [hpb, hob]
        simp
      · have hpid2 : ∃ q ∈ rest, q.id = pid := by
          rcases hpid with ⟨q, hq, hqid⟩
          rcases List.mem_cons.1 hq with rfl | hq
          · exact absurd hqid hp
          · exact ⟨q, hq, hqid⟩
        have hnodup2 : (rest.map Combatant.id).Nodup := by
          rw [List.map_cons] at hnodup
          exact (List.nodup_cons.1 hnodup).2
        have hpb : (p.id == pid) = false := by simp [hp]
        by_cases ho : p.id = other
        · have hnotin : ∀ q ∈ rest, q.id ≠ other := by
            intro q hq
            rw [List.map_cons] at hnodup
            have hni := (List.nodup_cons.1 hnodup).1
            intro hqo
            exact hni (ho ▸ hqo ▸ List.mem_map_of_mem Combatant.id hq)
          have hdrop : (p.id != other) = false := by simp [ho]
          rw [List.filter_cons, if_neg (by rw [hdrop]; exact Bool.false_ne_true)]
          have hfeq : rest.filter (fun q => q.id != other) = rest := by
            rw [List.filter_eq_self]
            intro q hq
            simp [bne_iff_ne]
            exact hnotin q hq
          rw [hfeq]
          have hob : (p.id == other) = true := by simp [ho]
          rw [List.findIdx_cons, List.findIdx_cons, hpb, hob]
          simp
        · have hkeep : (p.id != other) = true := by simp [bne_iff_ne, ho]
          rw [List.filter_cons, if_pos hkeep]
          have hob : (p.id == other) = false := by simp [ho]
          rw [List.findIdx_cons, List.findIdx_cons, List.findIdx_cons, hpb, hob]
          simp only [cond_false]
          rw [ih hnodup2 hpid2]
          have hcond : (rest.findIdx (fun p => p.id == other) + 1 <
              rest.findIdx (fun p => p.id == pid) + 1)
              = (rest.findIdx (fun p => p.id == other) <
                 rest.findIdx (fun p => p.id == pid)) := by
            simp
          by_cases hlt : rest.findIdx (fun p => p.id == other) <
              rest.findIdx (fun p => p.id == pid)
          · rw [if_pos hlt, if_pos (by omega : rest.findIdx (fun p => p.id == other) + 1 <
              rest.findIdx (fun p => p.id == pid) + 1)]
            omega
          · rw [if_neg hlt, if_neg (by omega : ¬ (rest.findIdx (fun p => p.id == other) + 1 <
              rest.findIdx (fun p => p.id == pid) + 1))]
            omega

/-- C2, amended: removing a different participant mid-match shifts a present
    player's join-order spawn slot exactly when the removed participant
    joined earlier — the slot index used by cooperative respawns drops by
    one in that case and is preserved when the removed participant joined
    later (or was absent); it is NOT always preserved, as the claim stated. -/
theorem C2_remove_shifts_join_slot (g : Game) (pid other : String)
    (hnodup : (g.players.map Combatant.id).Nodup)
    (hpid : ∃ p ∈ g.players, p.id = pid)
    (hne : other ≠ pid) :
    (g.removePlayer other).joinIdx pid
      = g.joinIdx pid - (if g.joinIdx other < g.joinIdx pid then 1 else 0) :=
  findIdx_filter_remove pid other hne g.players hnodup hpid

/-- C2, witness: in the concrete coop room with players A then B, removing A
    (joined earlier) shifts B's join slot from 1 to 0. -/
theorem C2_remove_shifts_join_slot_witness :
    (gAB.removePlayer "A").joinIdx "B"
      = gAB.joinIdx "B" - (if gAB.joinIdx "A" < gAB.joinIdx "B" then 1 else 0) := by
  have hids : gAB.players.map Combatant.id = ["A", "B"] := by with_unfolding_all rfl
  have hmem : "B" ∈ gAB.players.map Combatant.id := by rw [hids]; decide
  rcases List.mem_map.1 hmem with ⟨p, hp, hpid⟩
  exact C2_remove_shifts_join_slot gAB "B" "A"
    (by rw [hids]; decide) ⟨p, hp, hpid⟩ (by decide)

theorem find?_id_eq_some_of_mem_nodup :
    ∀ (l : List Combatant), (l.map Combatant.id).Nodup → ∀ v ∈ l,
      l.find? (fun c => c.id == v.id) = some v := by
  intro l
  induction l with
  | nil => intro _ v hv; exact absurd hv (List.not_mem_nil v)
  | cons a rest ih =>
      intro hn v hv
      have hn2 := List.nodup_cons.1 (by rw [List.map_cons] at hn; exact hn)
      rcases List.mem_cons.1 hv with rfl | hv
      · exact List.find?_cons_of_pos rest (by simp)
      · have hne : a.id ≠ v.id := by
          intro h
          exact hn2.1 (h ▸ List.mem_map_of_mem Combatant.id hv)
        rw [List.find?_cons_of_neg rest (by simp [hne])]
        exact ih hn2.2 v hv

theorem find?_id_map_stable (l : List Combatant) (h : Combatant → Combatant)
    (hid : ∀ c, (h c).id = c.id) (i : String) :
    (l.map h).find? (fun c => c.id == i) = (l.find? (fun c => c.id == i)).map h := by
  rw [List.find?_map]
  have : ((fun c : Combatant => c.id == i) ∘ h) = (fun c : Combatant => c.id == i) := by
    funext c
    simp [Function.comp, hid c]
  rw [this]

/-- C6: in deathmatch resolution, the victim returned by the eligibility scan
    is a live, unshielded Combatant hit by the projectile whose id differs
    from the projectile's owner (self-hit excluded by construction); the
    resolution marks exactly that Combatant dead with one more death, credits
    any still-present owner one frag, and appends the victim to the respawn
    queue with the fixed 2000 ms delay. -/
theorem C6_dm_hit_effects (g : Game) (b : Bullet) (v : Combatant)
    (hnodup : ((g.players ++ g.bots).map Combatant.id).Nodup)
    (hfind : (g.players ++ g.bots).find? (dmEligible b) = some v) :
    (g.resolveDMHit b).2 = true ∧
    v.alive = true ∧ ¬ v.shield > 0 ∧ bulletHits b v.x v.y ∧ v.id ≠ b.ownerId ∧
    (g.resolveDMHit b).1.findCombatant v.id
        = some { v with alive := false, deaths := v.deaths + 1 } ∧
    (∀ k ∈ g.players ++ g.bots, k.id = b.ownerId →
      (g.resolveDMHit b).1.findCombatant k.id = some { k with score := k.score + 1 }) ∧
    (g.resolveDMHit b).1.respawnQueue
        = g.respawnQueue ++ [{ entityId := v.id, timer := DM_RESPAWN_DELAY_MS }] := by
  have helig : dmEligible b v = true := List.find?_some hfind
  have hv : v ∈ g.players ++ g.bots := List.mem_of_find?_eq_some hfind
  have halive : v.alive = true := by
    have := helig
    unfold dmEligible at this
    simp only [Bool.and_eq_true] at this
    exact this.1.1.1
  have hvid : v.id ≠ b.ownerId := by
    have := helig
    unfold dmEligible at this
    simp only [Bool.and_eq_true, bne_iff_ne] at this
    exact this.1.1.2
  have hshield : ¬ v.shield > 0 := by
    have := helig
    unfold dmEligible at this
    simp only [Bool.and_eq_true, decide_eq_true_eq] at this
    exact this.1.2
  have hhits : bulletHits b v.x v.y := by
    have := helig
    unfold dmEligible at this
    simp only [Bool.and_eq_true, decide_eq_true_eq] at this
    exact this.2
  have hres : g.resolveDMHit b = (g.dmKill v.id b.ownerId, true) := by
    unfold Game.resolveDMHit
    rw [hfind]
  -- the two by-reference mutations of _dmKill
  have hid1 : ∀ c : Combatant,
      ((fun c => if c.id = v.id then
          { c with alive := false, deaths := c.deaths + 1 } else c) c).id = c.id := by
    intro c; by_cases h : c.id = v.id <;> simp [h]
  have hid2 : ∀ c : Combatant,
      ((fun c => if c.id = b.ownerId then { c with score := c.score + 1 } else c) c).id
        = c.id := by
    intro c; by_cases h : c.id = b.ownerId <;> simp [h]
  -- findCombatant over the dmKill result
  have hall : ∀ (i : String), (g.dmKill v.id b.ownerId).findCombatant i
      = (((g.players ++ g.bots).find? (fun c => c.id == i)).map
          (fun c => if c.id = v.id then
            { c with alive := false, deaths := c.deaths + 1 } else c)).map
          (fun c =>
            if ((g.players.any fun p => p.id == b.ownerId) ||
                (g.bots.any fun bt => bt.id == b.ownerId)) = true then
              (if c.id = b.ownerId then { c with score := c.score + 1 } else c)
            else c) := by
    intro i
    unfold Game.dmKill Game.findCombatant
    dsimp only
    by_cases hkp : ((g.players.any fun p => p.id == b.ownerId) ||
        (g.bots.any fun bt => bt.id == b.ownerId)) = true
    · rw [if_pos hkp]
      simp only [Game.mapEntityById]
      rw [show ∀ (gx : Game) (q : List RespawnEntry), (({ gx with respawnQueue := q } :
          Game).players ++ ({ gx with respawnQueue := q } : Game).bots)
          = gx.players ++ gx.bots from fun gx q => rfl]
      rw [← List.map_append, ← List.map_append]
      rw [find?_id_map_stable _ _ hid2 i, find?_id_map_stable _ _ hid1 i]
      rw [Option.map_map]
      cases hfd : (g.players ++ g.bots).find? (fun c => c.id == i) with
      | none => simp [hkp]
      | some c => simp [hkp, Function.comp]
    · rw [if_neg hkp]
      simp only [Game.mapEntityById]
      rw [show ∀ (gx : Game) (q : List RespawnEntry), (({ gx with respawnQueue := q } :
          Game).players ++ ({ gx with respawnQueue := q } : Game).bots)
          = gx.players ++ gx.bots from fun gx q => rfl]
      rw [← List.map_append]
      rw [find?_id_map_stable _ _ hid1 i]
      cases hfd : (g.players ++ g.bots).find? (fun c => c.id == i) with
      | none => simp [hkp]
      | some c => simp [hkp]
  refine ⟨by rw [hres], halive, hshield, hhits, hvid, ?_, ?_, ?_⟩
  · rw [hres]
    rw [hall v.id]
    rw [find?_id_eq_some_of_mem_nodup _ hnodup v hv]
    by_cases hkp : ((g.players.any fun p => p.id == b.ownerId) ||
        (g.bots.any fun bt => bt.id == b.ownerId)) = true <;>
      simp [hkp, hvid]
  · intro k hk hkid
    rw [hres]
    rw [hall k.id]
    rw [find?_id_eq_some_of_mem_nodup _ hnodup k hk]
    have hkp : ((g.players.any fun p => p.id == b.ownerId) ||
        (g.bots.any fun bt => bt.id == b.ownerId)) = true := by
      simp only [Bool.or_eq_true, List.any_eq_true]
      rcases List.mem_append.1 hk with hk2 | hk2
      · exact Or.inl ⟨k, hk2, by simp [hkid]⟩
      · exact Or.inr ⟨k, hk2, by simp [hkid]⟩
    have hkv : k.id ≠ v.id := by
      rw [hkid]; exact fun h => hvid h.symm
    have hov : b.ownerId ≠ v.id := fun h => hvid h.symm
    simp [hkp, hkv, hkid, hov]
  · rw [hres]
    unfold Game.dmKill
    dsimp only
    by_cases hkp : ((g.players.any fun p => p.id == b.ownerId) ||
        (g.bots.any fun bt => bt.id == b.ownerId)) = true <;>
      simp [hkp, Game.mapEntityById]

/-- C6, witness: in the concrete deathmatch room, A's advanced bullet
    eligibility-scans to victim B (the owner A itself is skipped). -/
theorem C6_dm_hit_effects_witness :
    (gFix.resolveDMHit (movedBullet bulletAB)).2 = true ∧
    (gFix.resolveDMHit (movedBullet bulletAB)).1.respawnQueue
      = gFix.respawnQueue ++ [{ entityId := cB.id, timer := DM_RESPAWN_DELAY_MS }] := by
  have h := C6_dm_hit_effects gFix (movedBullet bulletAB) cB
    (by with_unfolding_all decide)
    (by with_unfolding_all rfl)
  exact ⟨h.1, h.2.2.2.2.2.2.2⟩

theorem protectedEq_refl (c : Combatant) : protectedEq c c :=
  ⟨rfl, rfl, rfl, rfl, rfl, rfl⟩

theorem protectedEq_trans {a c e : Combatant} (h1 : protectedEq a c) (h2 : protectedEq c e) :
    protectedEq a e :=
  ⟨h1.1.trans h2.1, h1.2.1.trans h2.2.1, h1.2.2.1.trans h2.2.2.1,
   h1.2.2.2.1.trans h2.2.2.2.1, h1.2.2.2.2.1.trans h2.2.2.2.2.1,
   h1.2.2.2.2.2.trans h2.2.2.2.2.2⟩

theorem default_combatant_shield : (default : Combatant).shield = 0 := rfl

theorem shield_pos_lt_length (l : List Combatant) (i : ℕ)
    (h : (l.getD i default).shield > 0) : i < l.length := by
  by_contra hn
  push_neg at hn
  rw [listGetD_eq_default _ _ _ hn, default_combatant_shield] at h
  exact absurd h (by norm_num)

theorem getD_eq_getElem_of_lt {α : Type} [Inhabited α] (l : List α) (i : ℕ)
    (h : i < l.length) : l.getD i default = l[i] := by
  simp [List.getD_eq_getElem?_getD, List.getElem?_eq_getElem h]

theorem prot_getD_map (l : List Combatant) (f : Combatant → Combatant) (i : ℕ)
    (h : ∀ c ∈ l, c.shield > 0 → protectedEq (f c) c)
    (hsh : (l.getD i default).shield > 0) :
    protectedEq ((l.map f).getD i default) (l.getD i default) := by
  have hi : i < l.length := shield_pos_lt_length l i hsh
  have hg : l.getD i default = l[i] := getD_eq_getElem_of_lt l i hi
  have hm : (l.map f).getD i default = f l[i] := by
    simp [List.getD_eq_getElem?_getD, List.getElem?_map, List.getElem?_eq_getElem hi]
  rw [hm, hg]
  exact h _ (List.getElem_mem hi) (hg ▸ hsh)

theorem ids_map_pres (l : List Combatant) (f : Combatant → Combatant)
    (hf : ∀ c, (f c).id = c.id) : (l.map f).map Combatant.id = l.map Combatant.id := by
  rw [List.map_map]
  exact List.map_congr_left fun c _ => hf c

theorem nodup_players_of_append (g : Game)
    (hnodup : ((g.players ++ g.bots).map Combatant.id).Nodup) :
    (g.players.map Combatant.id).Nodup := by
  rw [List.map_append] at hnodup
  exact hnodup.sublist (List.sublist_append_left _ _)

/-- Both by-reference mutations of _dmKill leave every shielded player's and
    bot's protected state intact, and all ids. -/
theorem dmKill_prot (g : Game) (vId kId : String)
    (hnodup : ((g.players ++ g.bots).map Combatant.id).Nodup)
    (hexists : ∃ t ∈ g.players ++ g.bots, t.id = vId ∧ ¬ t.shield > 0) :
    ((g.dmKill vId kId).players.map Combatant.id = g.players.map Combatant.id ∧
     (g.dmKill vId kId).bots.map Combatant.id = g.bots.map Combatant.id) ∧
    (∀ i, (g.players.getD i default).shield > 0 →
       protectedEq ((g.dmKill vId kId).players.getD i default) (g.players.getD i default)) ∧
    (∀ i, (g.bots.getD i default).shield > 0 →
       protectedEq ((g.dmKill vId kId).bots.getD i default) (g.bots.getD i default)) := by
  rcases hexists with ⟨t, ht, htid, htsh⟩
  have hvic : ∀ (l : List Combatant), (∀ c ∈ l, c ∈ g.players ++ g.bots) →
      ∀ c ∈ l, c.shield > 0 →
      protectedEq ((fun c => if c.id = vId then
        { c with alive := false, deaths := c.deaths + 1 } else c) c) c := by
    intro l hsub c hc hcs
    by_cases hcid : c.id = vId
    · exfalso
      have hct : c = t :=
        List.inj_on_of_nodup_map hnodup (hsub c hc) ht (by rw [hcid, htid])
      rw [hct] at hcs
      exact htsh hcs
    · simp only [hcid, if_false]
      exact protectedEq_refl c
  have hscore : ∀ c : Combatant, protectedEq ((fun c => if c.id = kId then
      { c with score := c.score + 1 } else c) c) c := by
    intro c
    by_cases hcid : c.id = kId <;> simp [hcid, protectedEq]
  have hid1 : ∀ c : Combatant, ((fun c => if c.id = vId then
      { c with alive := false, deaths := c.deaths + 1 } else c) c).id = c.id := by
    intro c; by_cases h : c.id = vId <;> simp [h]
  have hid2 : ∀ c : Combatant, ((fun c => if c.id = kId then
      { c with score := c.score + 1 } else c) c).id = c.id := by
    intro c; by_cases h : c.id = kId <;> simp [h]
  unfold Game.dmKill
  dsimp only
  by_cases hkp : ((g.players.any fun p => p.id == kId) ||
      (g.bots.any fun bt => bt.id == kId)) = true
  · rw [if_pos hkp]
    simp only [Game.mapEntityById]
    refine ⟨⟨?_, ?_⟩, ?_, ?_⟩
    · rw [ids_map_pres _ _ hid2, ids_map_pres _ _ hid1]
    · rw [ids_map_pres _ _ hid2, ids_map_pres _ _ hid1]
    · intro i hsh
      have h1 := prot_getD_map g.players _ i
        (hvic g.players (fun c hc => List.mem_append_left _ hc)) hsh
      have hsh2 : ((g.players.map (fun c => if c.id = vId then
          { c with alive := false, deaths := c.deaths + 1 } else c)).getD i default).shield
          > 0 := by
        rw [h1.2.2.2.1]; exact hsh
      have h2 := prot_getD_map _ _ i (fun c _ _ => hscore c) hsh2
      exact protectedEq_trans h2 h1
    · intro i hsh
      have h1 := prot_getD_map g.bots _ i
        (hvic g.bots (fun c hc => List.mem_append_right _ hc)) hsh
      have hsh2 : ((g.bots.map (fun c => if c.id = vId then
          { c with alive := false, deaths := c.deaths + 1 } else c)).getD i default).shield
          > 0 := by
        rw [h1.2.2.2.1]; exact hsh
      have h2 := prot_getD_map _ _ i (fun c _ _ => hscore c) hsh2
      exact protectedEq_trans h2 h1
  · rw [if_neg hkp]
    simp only [Game.mapEntityById]
    refine ⟨⟨?_, ?_⟩, ?_, ?_⟩
    · rw [ids_map_pres _ _ hid1]
    · rw [ids_map_pres _ _ hid1]
    · intro i hsh
      exact prot_getD_map g.players _ i
        (hvic g.players (fun c hc => List.mem_append_left _ hc)) hsh
    · intro i hsh
      exact prot_getD_map g.bots _ i
        (hvic g.bots (fun c hc => List.mem_append_right _ hc)) hsh

/-- Deathmatch entity-hit resolution leaves every shielded player's and
    bot's protected state intact, and all ids. -/
theorem resolveDMHit_prot (g : Game) (b : Bullet)
    (hnodup : ((g.players ++ g.bots).map Combatant.id).Nodup) :
    (((g.resolveDMHit b).1.players.map Combatant.id = g.players.map Combatant.id) ∧
     ((g.resolveDMHit b).1.bots.map Combatant.id = g.bots.map Combatant.id)) ∧
    (∀ i, (g.players.getD i default).shield > 0 →
       protectedEq ((g.resolveDMHit b).1.players.getD i default)
         (g.players.getD i default)) ∧
    (∀ i, (g.bots.getD i default).shield > 0 →
       protectedEq ((g.resolveDMHit b).1.bots.getD i default) (g.bots.getD i default)) := by
  unfold Game.resolveDMHit
  cases hf : (g.players ++ g.bots).find? (dmEligible b) with
  | none =>
      exact ⟨⟨rfl, rfl⟩, fun i _ => protectedEq_refl _, fun i _ => protectedEq_refl _⟩
  | some t =>
      have helig := List.find?_some hf
      have ht := List.mem_of_find?_eq_some hf
      have htsh : ¬ t.shield > 0 := by
        unfold dmEligible at helig
        simp only [Bool.and_eq_true, decide_eq_true_eq] at helig
        exact helig.1.2
      exact dmKill_prot g t.id b.ownerId hnodup ⟨t, ht, rfl, htsh⟩

/-- The cooperative hit of _hitPlayer (teleport-or-eliminate) leaves every
    shielded player's protected state intact when the hit player was
    unshielded. -/
theorem hitPlayer_prot (g : Game) (pid : String)
    (hnodup : (g.players.map Combatant.id).Nodup)
    (hexists : ∃ t ∈ g.players, t.id = pid ∧ ¬ t.shield > 0) :
    ((g.hitPlayer pid).players.map Combatant.id = g.players.map Combatant.id) ∧
    (∀ i, (g.players.getD i default).shield > 0 →
       protectedEq ((g.hitPlayer pid).players.getD i default) (g.players.getD i default)) ∧
    (g.hitPlayer pid).bots = g.bots := by
  rcases hexists with ⟨t, ht, htid, htsh⟩
  have hsafe : ∀ c ∈ g.players, c.shield > 0 →
      protectedEq ((fun p => if p.id = pid then
        (let p1 : Combatant := { p with lives := p.lives.map (· - 1) }
         if p1.lives ≤ (0 : WithTop ℤ) then { p1 with alive := false }
         else
           (let idx := g.joinIdx pid
            let spawn := g.spawnPoints.getD (idx % g.spawnPoints.length) default
            { p1 with x := spawn.x * TILE_SIZE + 1, y := spawn.y * TILE_SIZE + 1,
                      shield := 2000 }))
        else p) c) c := by
    intro c hc hcs
    by_cases hcid : c.id = pid
    · exfalso
      have hct : c = t := List.inj_on_of_nodup_map hnodup hc ht (by rw [hcid, htid])
      rw [hct] at hcs
      exact htsh hcs
    · simp only [hcid, if_false]
      exact protectedEq_refl c
  have hid : ∀ c : Combatant, ((fun p => if p.id = pid then
      (let p1 : Combatant := { p with lives := p.lives.map (· - 1) }
       if p1.lives ≤ (0 : WithTop ℤ) then { p1 with alive := false }
       else
         (let idx := g.joinIdx pid
          let spawn := g.spawnPoints.getD (idx % g.spawnPoints.length) default
          { p1 with x := spawn.x * TILE_SIZE + 1, y := spawn.y * TILE_SIZE + 1,
                    shield := 2000 }))
      else p) c).id = c.id := by
    intro c
    by_cases h : c.id = pid
    · simp only [h, if_true]
      split_ifs <;> simp [h]
    · simp [h]
  refine ⟨?_, ?_, rfl⟩
  · exact ids_map_pres _ _ hid
  · intro i hsh
    exact prot_getD_map g.players _ i hsafe hsh

/-- Cooperative entity-hit resolution leaves every shielded player's
    protected state intact, all ids, and the bots list. -/
theorem resolveCoopHit_prot (g : Game) (b : Bullet)
    (hnodup : ((g.players ++ g.bots).map Combatant.id).Nodup) :
    (((g.resolveCoopHit b).1.players.map Combatant.id = g.players.map Combatant.id) ∧
     ((g.resolveCoopHit b).1.bots.map Combatant.id = g.bots.map Combatant.id)) ∧
    (∀ i, (g.players.getD i default).shield > 0 →
       protectedEq ((g.resolveCoopHit b).1.players.getD i default)
         (g.players.getD i default)) ∧
    (∀ i, (g.bots.getD i default).shield > 0 →
       protectedEq ((g.resolveCoopHit b).1.bots.getD i default)
         (g.bots.getD i default)) := by
  have hscore : ∀ c : Combatant, protectedEq ((fun p => if p.id = b.ownerId then
      { p with score := p.score + 100 } else p) c) c := by
    intro c
    by_cases hcid : c.id = b.ownerId <;> simp [hcid, protectedEq]
  have hid100 : ∀ c : Combatant, ((fun p => if p.id = b.ownerId then
      { p with score := p.score + 100 } else p) c).id = c.id := by
    intro c; by_cases h : c.id = b.ownerId <;> simp [h]
  unfold Game.resolveCoopHit
  split_ifs with hteam
  · cases hf : g.players.find? (fun p =>
        p.alive && decide (¬ p.shield > 0) && decide (bulletHits b p.x p.y)) with
    | none =>
        exact ⟨⟨rfl, rfl⟩, fun i _ => protectedEq_refl _, fun i _ => protectedEq_refl _⟩
    | some t =>
        have helig := List.find?_some hf
        have ht := List.mem_of_find?_eq_some hf
        have htsh : ¬ t.shield > 0 := by
          simp only [Bool.and_eq_true, decide_eq_true_eq] at helig
          exact helig.1.2
        have h := hitPlayer_prot g t.id (nodup_players_of_append g hnodup)
          ⟨t, ht, rfl, htsh⟩
        exact ⟨⟨h.1, by rw [h.2.2]⟩, h.2.1, by rw [h.2.2]; exact fun i _ => protectedEq_refl _⟩
  · cases hscan : coopEnemyScan b g.enemies with
    | mk fst snd =>
        cases fst with
        | none =>
            exact ⟨⟨rfl, rfl⟩, fun i _ => protectedEq_refl _, fun i _ => protectedEq_refl _⟩
        | some e =>
            refine ⟨⟨ids_map_pres _ _ hid100, rfl⟩, ?_, fun i _ => protectedEq_refl _⟩
            intro i hsh
            exact prot_getD_map g.players _ i (fun c _ _ => hscore c) hsh

/-- The terrain phase of a bullet never touches the combatant collections. -/
theorem bulletTilePhase_entities (g : Game) (b : Bullet) :
    ∀ out, g.bulletTilePhase b = some out →
      out.1.players = g.players ∧ out.1.bots = g.bots := by
  intro out hout
  unfold Game.bulletTilePhase at hout
  dsimp only at hout
  by_cases hrange : (0 ≤ bulletCellX b ∧ 0 ≤ bulletCellY b ∧
      bulletCellX b < MAP_COLS ∧ bulletCellY b < MAP_ROWS)
  · rw [if_pos hrange] at hout
    split at hout
    · injection hout with h; exact h ▸ ⟨rfl, rfl⟩
    · injection hout with h; exact h ▸ ⟨rfl, rfl⟩
    · rcases Decidable.em (g.mode = Mode.coop) with hm | hm
      · rw [if_pos hm] at hout
        injection hout with h
        exact h ▸ ⟨rfl, rfl⟩
      · rw [if_neg hm] at hout
        exact absurd hout (by simp)
    · exact absurd hout (by simp)
  · rw [if_neg hrange] at hout
    exact absurd hout (by simp)

/-- One bullet iteration leaves every shielded player's and bot's protected
    state intact, and all ids. -/
theorem bulletStep_prot (g : Game) (b : Bullet)
    (hnodup : ((g.players ++ g.bots).map Combatant.id).Nodup) :
    (((g.bulletStep b).1.players.map Combatant.id = g.players.map Combatant.id) ∧
     ((g.bulletStep b).1.bots.map Combatant.id = g.bots.map Combatant.id)) ∧
    (∀ i, (g.players.getD i default).shield > 0 →
       protectedEq ((g.bulletStep b).1.players.getD i default) (g.players.getD i default)) ∧
    (∀ i, (g.bots.getD i default).shield > 0 →
       protectedEq ((g.bulletStep b).1.bots.getD i default) (g.bots.getD i default)) := by
  unfold Game.bulletStep
  dsimp only
  by_cases hb : bulletOut (movedBullet b) = true
  · rw [if_pos hb]
    exact ⟨⟨rfl, rfl⟩, fun i _ => protectedEq_refl _, fun i _ => protectedEq_refl _⟩
  · rw [if_neg hb]
    cases htp : g.bulletTilePhase (movedBullet b) with
    | some out =>
        simp only [htp]
        have h := bulletTilePhase_entities g (movedBullet b) out htp
        rw [h.1, h.2]
        exact ⟨⟨rfl, rfl⟩, fun i _ => protectedEq_refl _, fun i _ => protectedEq_refl _⟩
    | none =>
        simp only [htp]
        by_cases hdm : g.isDM = true
        · simp only [hdm, if_true]
          have h := resolveDMHit_prot g (movedBullet b) hnodup
          cases hhit : (g.resolveDMHit (movedBullet b)).2 <;>
            simp only [hhit, if_true, if_false, Bool.false_eq_true] <;>
            exact h
        · simp only [hdm, if_false, Bool.false_eq_true]
          have h := resolveCoopHit_prot g (movedBullet b) hnodup
          cases hhit : (g.resolveCoopHit (movedBullet b)).2 <;>
            simp only [hhit, if_true, if_false, Bool.false_eq_true] <;>
            exact h

/-- The whole descending bullet loop leaves every shielded player's and
    bot's protected state intact. -/
theorem updateBulletsGo_prot (g : Game)
    (hnodup : ((g.players ++ g.bots).map Combatant.id).Nodup) :
    ∀ (bs : List Bullet),
      (((g.updateBulletsGo bs).1.players.map Combatant.id = g.players.map Combatant.id) ∧
       ((g.updateBulletsGo bs).1.bots.map Combatant.id = g.bots.map Combatant.id)) ∧
      (∀ i, (g.players.getD i default).shield > 0 →
         protectedEq ((g.updateBulletsGo bs).1.players.getD i default)
           (g.players.getD i default)) ∧
      (∀ i, (g.bots.getD i default).shield > 0 →
         protectedEq ((g.updateBulletsGo bs).1.bots.getD i default)
           (g.bots.getD i default)) := by
  intro bs
  induction bs with
  | nil =>
      exact ⟨⟨rfl, rfl⟩, fun i _ => protectedEq_refl _, fun i _ => protectedEq_refl _⟩
  | cons b rest ih =>
      have hn1 : (((g.updateBulletsGo rest).1.players ++
          (g.updateBulletsGo rest).1.bots).map Combatant.id).Nodup := by
        rw [List.map_append, ih.1.1, ih.1.2, ← List.map_append]
        exact hnodup
      have hstep := bulletStep_prot (g.updateBulletsGo rest).1 b hn1
      have hgo : g.updateBulletsGo (b :: rest)
          = (match (g.updateBulletsGo rest).1.bulletStep b with
             | (g2, some b2) => (g2, b2 :: (g.updateBulletsGo rest).2)
             | (g2, none) => (g2, (g.updateBulletsGo rest).2)) := rfl
      have hfst : (g.updateBulletsGo (b :: rest)).1
          = ((g.updateBulletsGo rest).1.bulletStep b).1 := by
        rw [hgo]
        rcases hsb : (g.updateBulletsGo rest).1.bulletStep b with ⟨g2, ob⟩
        cases ob <;> rfl
      refine ⟨⟨?_, ?_⟩, ?_, ?_⟩
      · rw [hfst, hstep.1.1, ih.1.1]
      · rw [hfst, hstep.1.2, ih.1.2]
      · intro i hsh
        have h1 := ih.2.1 i hsh
        have hsh1 : (((g.updateBulletsGo rest).1.players.getD i default)).shield > 0 := by
          rw [h1.2.2.2.1]; exact hsh
        have h2 := hstep.2.1 i hsh1
        rw [hfst]
        exact protectedEq_trans h2 h1
      · intro i hsh
        have h1 := ih.2.2 i hsh
        have hsh1 : (((g.updateBulletsGo rest).1.bots.getD i default)).shield > 0 := by
          rw [h1.2.2.2.1]; exact hsh
        have h2 := hstep.2.2 i hsh1
        rw [hfst]
        exact protectedEq_trans h2 h1

/-- C7: in every mode, a Combatant (player or bot) whose shield countdown is
    positive when the projectile phase runs is never selected as a victim and
    is never harmed by any projectile of that phase: its alive flag, death
    count, lives, shield countdown and position are all unchanged by
    _updateBullets, even when bullet boxes overlap its box. -/
theorem C7_shield_protects (g : Game)
    (hnodup : ((g.players ++ g.bots).map Combatant.id).Nodup) :
    (∀ i, (g.players.getD i default).shield > 0 →
       protectedEq (g.updateBullets.players.getD i default) (g.players.getD i default)) ∧
    (∀ i, (g.bots.getD i default).shield > 0 →
       protectedEq (g.updateBullets.bots.getD i default) (g.bots.getD i default)) := by
  have h := updateBulletsGo_prot g hnodup g.bullets
  have hpl : g.updateBullets.players = (g.updateBulletsGo g.bullets).1.players := rfl
  have hbt : g.updateBullets.bots = (g.updateBulletsGo g.bullets).1.bots := rfl
  exact ⟨fun i hsh => hpl ▸ h.2.1 i hsh, fun i hsh => hbt ▸ h.2.2 i hsh⟩

/-- C7, witness: in the concrete room gFixS a bullet overlaps the shielded
    player S (index 2), and S's protected state survives the bullet phase. -/
theorem C7_shield_protects_witness :
    protectedEq (gFixS.updateBullets.players.getD 2 default)
      (gFixS.players.getD 2 default) :=
  (C7_shield_protects gFixS (by with_unfolding_all decide)).1 2
    (by exact of_decide_eq_true (by with_unfolding_all rfl))

/-- Every fired terrain branch destroys the bullet. -/
theorem bulletTilePhase_dead (g : Game) (b : Bullet) :
    ∀ out, g.bulletTilePhase b = some out → out.2 = none := by
  intro out hout
  unfold Game.bulletTilePhase at hout
  dsimp only at hout
  by_cases hrange : (0 ≤ bulletCellX b ∧ 0 ≤ bulletCellY b ∧
      bulletCellX b < MAP_COLS ∧ bulletCellY b < MAP_ROWS)
  · rw [if_pos hrange] at hout
    split at hout
    · injection hout with h; exact h ▸ rfl
    · injection hout with h; exact h ▸ rfl
    · rcases Decidable.em (g.mode = Mode.coop) with hm | hm
      · rw [if_pos hm] at hout
        injection hout with h
        exact h ▸ rfl
      · rw [if_neg hm] at hout
        exact absurd hout (by simp)
    · exact absurd hout (by simp)
  · rw [if_neg hrange] at hout
    exact absurd hout (by simp)

/-- The terrain phase fires exactly when the spec's terrain condition holds. -/
theorem bulletTilePhase_isSome (g : Game) (b : Bullet) :
    (∃ out, g.bulletTilePhase b = some out) ↔ g.terrainHit b = true := by
  unfold Game.bulletTilePhase Game.terrainHit
  dsimp only
  by_cases hrange : (0 ≤ bulletCellX b ∧ 0 ≤ bulletCellY b ∧
      bulletCellX b < MAP_COLS ∧ bulletCellY b < MAP_ROWS)
  · rw [if_pos hrange]
    cases hget : g.mapData.get? ((bulletCellY b * MAP_COLS + bulletCellX b).toNat) with
    | none => simp [hget, hrange]
    | some t =>
        rcases t with _|_|_|_|_|_|n
        · simp [hget, hrange]
        · simp [hget, hrange]
        · simp [hget, hrange]
        · simp [hget, hrange]
        · simp [hget, hrange]
        · rcases Decidable.em (g.mode = Mode.coop) with hm | hm <;>
            simp [hget, hrange, hm]
        · simp [hget, hrange]
  · rw [if_neg hrange]
    simp only [decide_eq_true_eq]
    constructor
    · intro h
      rcases h with ⟨out, hout⟩
      exact absurd hout (by simp)
    · intro h
      exact absurd ⟨h.1, h.2.1, h.2.2.1, h.2.2.2.1⟩ hrange

/-- A bullet surviving its step is exactly the advanced bullet. -/
theorem bulletStep_some (g : Game) (b : Bullet) :
    ∀ c, (g.bulletStep b).2 = some c → c = movedBullet b := by
  intro c hc
  unfold Game.bulletStep at hc
  dsimp only at hc
  by_cases hb : bulletOut (movedBullet b) = true
  · rw [if_pos hb] at hc
    exact absurd hc (by simp)
  · rw [if_neg hb] at hc
    cases htp : g.bulletTilePhase (movedBullet b) with
    | some out =>
        rw [htp] at hc
        have := bulletTilePhase_dead g (movedBullet b) out htp
        dsimp only at hc
        rw [this] at hc
        exact absurd hc (by simp)
    | none =>
        rw [htp] at hc
        dsimp only at hc
        by_cases hhit : (if g.isDM = true then g.resolveDMHit (movedBullet b)
            else g.resolveCoopHit (movedBullet b)).2 = true
        · rw [if_pos hhit] at hc
          exact absurd hc (by simp)
        · rw [if_neg hhit] at hc
          injection hc with h
          exact h.symm

/-- Ids of the surviving bullets all come from the processed list. -/
theorem updateBulletsGo_ids_sub (g : Game) :
    ∀ (bs : List Bullet) (i : ℕ), i ∈ (g.updateBulletsGo bs).2.map Bullet.id →
      i ∈ bs.map Bullet.id := by
  intro bs
  induction bs with
  | nil => intro i hi; exact absurd hi (by simp [Game.updateBulletsGo])
  | cons b rest ih =>
      intro i hi
      have hgo : g.updateBulletsGo (b :: rest)
          = (match (g.updateBulletsGo rest).1.bulletStep b with
             | (g2, some b2) => (g2, b2 :: (g.updateBulletsGo rest).2)
             | (g2, none) => (g2, (g.updateBulletsGo rest).2)) := rfl
      rcases hsb : (g.updateBulletsGo rest).1.bulletStep b with ⟨g2, ob⟩
      cases ob with
      | none =>
          rw [hgo, hsb] at hi
          exact List.mem_cons_of_mem _ (ih i hi)
      | some b2 =>
          rw [hgo, hsb] at hi
          dsimp only [List.map_cons] at hi
          rcases List.mem_cons.1 hi with heq | hi2
          · have hmv := bulletStep_some (g.updateBulletsGo rest).1 b b2 (by rw [hsb])
            rw [List.map_cons]
            rw [hmv] at heq
            exact List.mem_cons.2 (Or.inl heq)
          · exact List.mem_cons_of_mem _ (ih i hi2)

/-- A bullet destroyed at its processing point is absent from the surviving
    list, provided bullet ids are unique. -/
theorem destroyed_not_in_go (g : Game) :
    ∀ (bs : List Bullet) (k : ℕ), (bs.map Bullet.id).Nodup → k < bs.length →
      ((g.updateBulletsGo (bs.drop (k + 1))).1.bulletStep (bs.getD k default)).2 = none →
      (bs.getD k default).id ∉ (g.updateBulletsGo bs).2.map Bullet.id := by
  intro bs
  induction bs with
  | nil => intro k _ hk; exact absurd hk (by simp)
  | cons b rest ih =>
      intro k hnodup hk hdead
      have hnd := List.nodup_cons.1 (by rw [List.map_cons] at hnodup; exact hnodup)
      have hgo : g.updateBulletsGo (b :: rest)
          = (match (g.updateBulletsGo rest).1.bulletStep b with
             | (g2, some b2) => (g2, b2 :: (g.updateBulletsGo rest).2)
             | (g2, none) => (g2, (g.updateBulletsGo rest).2)) := rfl
      cases k with
      | zero =>
          have hdead0 : ((g.updateBulletsGo rest).1.bulletStep b).2 = none := by
            simpa using hdead
          rcases hsb : (g.updateBulletsGo rest).1.bulletStep b with ⟨g2, ob⟩
          rw [hsb] at hdead0
          dsimp only at hdead0
          rw [hdead0] at hsb
          rw [hgo, hsb]
          intro hmem
          have := updateBulletsGo_ids_sub g rest b.id (by simpa using hmem)
          exact hnd.1 (by simpa using this)
      | succ k2 =>
          have hk2 : k2 < rest.length := by simpa using hk
          have hdead2 : ((g.updateBulletsGo (rest.drop (k2 + 1))).1.bulletStep
              (rest.getD k2 default)).2 = none := by
            simpa using hdead
          have hni := ih k2 hnd.2 hk2 hdead2
          have hgk : (b :: rest).getD (k2 + 1) default = rest.getD k2 default := by
            simp [List.getD]
          rw [hgk]
          rcases hsb : (g.updateBulletsGo rest).1.bulletStep b with ⟨g2, ob⟩
          cases ob with
          | none =>
              rw [hgo, hsb]
              exact hni
          | some b2 =>
              rw [hgo, hsb]
              dsimp only [List.map_cons]
              intro hmem
              rcases List.mem_cons.1 hmem with heq | hmem2
              · have hmv := bulletStep_some (g.updateBulletsGo rest).1 b b2 (by rw [hsb])
                have hidmem : (rest.getD k2 default).id ∈ rest.map Bullet.id := by
                  have : rest.getD k2 default ∈ rest := by
                    rw [getD_eq_getElem_of_lt rest k2 hk2]
                    exact List.getElem_mem hk2
                  exact List.mem_map_of_mem Bullet.id this
                rw [hmv] at heq
                exact hnd.1 (heq ▸ hidmem)
              · exact hni hmem2

/-- C5: a live projectile is resolved by at most one event per tick, checked
    in the strict order bounds, then terrain at its current cell, then entity
    hit — its step survives exactly when the spec's ordered first-match fate
    finds no event, a surviving projectile is the advanced one (no other
    mutation), and a projectile destroyed at its processing point within
    _updateBullets is gone from the resulting live set and from the snapshot
    of the resulting state in that same tick. -/
theorem C5_single_resolution (g : Game) :
    (∀ b : Bullet,
      ((g.bulletStep b).2 = none ↔ (g.bulletFate (movedBullet b)).isSome = true) ∧
      (∀ c, (g.bulletStep b).2 = some c → c = movedBullet b)) ∧
    ((g.bullets.map Bullet.id).Nodup →
      ∀ k, k < g.bullets.length →
        ((g.stateBeforeBullet k).bulletStep (g.bullets.getD k default)).2 = none →
        (g.bullets.getD k default).id ∉ g.updateBullets.bullets.map Bullet.id ∧
        (g.bullets.getD k default).id ∉
          g.updateBullets.getState.bullets.map BulletView.id) := by
  constructor
  · intro b
    constructor
    · unfold Game.bulletStep Game.bulletFate
      dsimp only
      by_cases hb : bulletOut (movedBullet b) = true
      · simp [hb]
      · rw [if_neg hb, if_neg hb]
        cases htp : g.bulletTilePhase (movedBullet b) with
        | some out =>
            have hdead := bulletTilePhase_dead g (movedBullet b) out htp
            have hterr : g.terrainHit (movedBullet b) = true :=
              (bulletTilePhase_isSome g (movedBullet b)).1 ⟨out, htp⟩
            simp [hdead, hterr]
        | none =>
            have hterr : ¬ g.terrainHit (movedBullet b) = true := by
              intro h
              rcases (bulletTilePhase_isSome g (movedBullet b)).2 h with ⟨out, hout⟩
              rw [htp] at hout
              exact absurd hout (by simp)
            rw [if_neg hterr]
            dsimp only
            by_cases hhit : (if g.isDM = true then g.resolveDMHit (movedBullet b)
                else g.resolveCoopHit (movedBullet b)).2 = true
            · simp [hhit]
            · simp [hhit]
    · exact bulletStep_some g b
  · intro hnodup k hk hdead
    have h1 := destroyed_not_in_go g g.bullets k hnodup hk hdead
    refine ⟨h1, ?_⟩
    have hview : g.updateBullets.getState.bullets.map BulletView.id
        = g.updateBullets.bullets.map Bullet.id := by
      simp [Game.getState, List.map_map]
    rw [hview]
    exact h1

/-- C5, witness: in the concrete room gFix the only bullet (index 0) is
    destroyed at its processing point (it hits B) and is absent from the
    surviving set and the snapshot. -/
theorem C5_single_resolution_witness :
    (gFix.bullets.getD 0 default).id ∉ gFix.updateBullets.bullets.map Bullet.id ∧
    (gFix.bullets.getD 0 default).id ∉
      gFix.updateBullets.getState.bullets.map BulletView.id :=
  (C5_single_resolution gFix).2 (by with_unfolding_all decide) 0
    (by with_unfolding_all decide)
    (by with_unfolding_all rfl)

theorem getElemD_set_self {α : Type} (l : List α) (i : ℕ) (a d : α) (h : i < l.length) :
    ((l.set i a)[i]?).getD d = a := by
  rw [List.getElem?_set_self (by simpa using h)]
  rfl

theorem getElemD_set_ne {α : Type} (l : List α) {i j : ℕ} (a d : α) (h : i ≠ j) :
    ((l.set i a)[j]?).getD d = (l[j]?).getD d := by
  rw [List.getElem?_set_ne h]

theorem tanksOverlap_symm {a b c d : ℚ} (h : tanksOverlap a b c d) :
    tanksOverlap c d a b :=
  ⟨h.2.1, h.1, h.2.2.2, h.2.2.1⟩

theorem tryMove_cases (g : Game) (r : EntityRef) (dx dy : ℚ) :
    g.tryMove r dx dy = g ∨
    (¬ (g.refX r + dx < 0 ∨ g.refY r + dy < 0 ∨
        (MAP_COLS : ℚ) * TILE_SIZE < g.refX r + dx + TANK_SIZE ∨
        (MAP_ROWS : ℚ) * TILE_SIZE < g.refY r + dy + TANK_SIZE) ∧
     g.collidesWithTiles (g.refX r + dx) (g.refY r + dy) = false ∧
     g.collidesWithTanks r (g.refX r + dx) (g.refY r + dy) = false ∧
     g.tryMove r dx dy = g.refSetPos r (g.refX r + dx) (g.refY r + dy)) := by
  unfold Game.tryMove
  dsimp only
  split_ifs with h1 h2 h3
  · exact Or.inl rfl
  · exact Or.inl rfl
  · exact Or.inl rfl
  · exact Or.inr ⟨h1, by simpa using h2, by simpa using h3, rfl⟩

theorem refSetPos_of_not_valid (g : Game) (r : EntityRef) (nx ny : ℚ)
    (h : ¬ g.refValid r) : g.refSetPos r nx ny = g := by
  cases r with
  | player i =>
      have hle : g.players.length ≤ i := not_lt.1 h
      show { g with players := _ } = g
      rw [List.set_eq_of_length_le hle]
  | bot i =>
      have hle : g.bots.length ≤ i := not_lt.1 h
      show { g with bots := _ } = g
      rw [List.set_eq_of_length_le hle]
  | enemy i =>
      have hle : g.enemies.length ≤ i := not_lt.1 h
      show { g with enemies := _ } = g
      rw [List.set_eq_of_length_le hle]

theorem refSetPos_mapData (g : Game) (r : EntityRef) (nx ny : ℚ) :
    (g.refSetPos r nx ny).mapData = g.mapData := by
  cases r <;> rfl

theorem refSetPos_collidesWithTiles (g : Game) (r : EntityRef) (nx ny x y : ℚ) :
    (g.refSetPos r nx ny).collidesWithTiles x y = g.collidesWithTiles x y := by
  cases r <;> rfl

theorem refSetPos_allRefs (g : Game) (r : EntityRef) (nx ny : ℚ) :
    (g.refSetPos r nx ny).allRefs = g.allRefs := by
  cases r <;> simp [Game.allRefs, Game.refSetPos]

theorem refSetPos_refAlive (g : Game) (r : EntityRef) (nx ny : ℚ) (q : EntityRef) :
    (g.refSetPos r nx ny).refAlive q = g.refAlive q := by
  cases r with
  | player i =>
      cases q with
      | player j =>
          by_cases hij : i = j
          · subst hij
            by_cases hlt : i < g.players.length
            · simp [Game.refSetPos, Game.refAlive, getElemD_set_self, hlt]
            · simp [Game.refSetPos, Game.refAlive,
                List.set_eq_of_length_le (not_lt.1 hlt)]
          · simp [Game.refSetPos, Game.refAlive, getElemD_set_ne, hij]
      | bot j => rfl
      | enemy j => rfl
  | bot i =>
      cases q with
      | player j => rfl
      | bot j =>
          by_cases hij : i = j
          · subst hij
            by_cases hlt : i < g.bots.length
            · simp [Game.refSetPos, Game.refAlive, getElemD_set_self, hlt]
            · simp [Game.refSetPos, Game.refAlive,
                List.set_eq_of_length_le (not_lt.1 hlt)]
          · simp [Game.refSetPos, Game.refAlive, getElemD_set_ne, hij]
      | enemy j => rfl
  | enemy i =>
      cases q with
      | player j => rfl
      | bot j => rfl
      | enemy j =>
          by_cases hij : i = j
          · subst hij
            by_cases hlt : i < g.enemies.length
            · simp [Game.refSetPos, Game.refAlive, getElemD_set_self, hlt]
            · simp [Game.refSetPos, Game.refAlive,
                List.set_eq_of_length_le (not_lt.1 hlt)]
          · simp [Game.refSetPos, Game.refAlive, getElemD_set_ne, hij]

theorem refSetPos_refX_ne (g : Game) (r : EntityRef) (nx ny : ℚ) (q : EntityRef)
    (hne : q ≠ r) : (g.refSetPos r nx ny).refX q = g.refX q := by
  cases r with
  | player i =>
      cases q with
      | player j =>
          have hij : i ≠ j := fun h => hne (by rw [h])
          simp [Game.refSetPos, Game.refX, getElemD_set_ne, hij]
      | bot j => rfl
      | enemy j => rfl
  | bot i =>
      cases q with
      | player j => rfl
      | bot j =>
          have hij : i ≠ j := fun h => hne (by rw [h])
          simp [Game.refSetPos, Game.refX, getElemD_set_ne, hij]
      | enemy j => rfl
  | enemy i =>
      cases q with
      | player j => rfl
      | bot j => rfl
      | enemy j =>
          have hij : i ≠ j := fun h => hne (by rw [h])
          simp [Game.refSetPos, Game.refX, getElemD_set_ne, hij]

theorem refSetPos_refY_ne (g : Game) (r : EntityRef) (nx ny : ℚ) (q : EntityRef)
    (hne : q ≠ r) : (g.refSetPos r nx ny).refY q = g.refY q := by
  cases r with
  | player i =>
      cases q with
      | player j =>
          have hij : i ≠ j := fun h => hne (by rw [h])
          simp [Game.refSetPos, Game.refY, getElemD_set_ne, hij]
      | bot j => rfl
      | enemy j => rfl
  | bot i =>
      cases q with
      | player j => rfl
      | bot j =>
          have hij : i ≠ j := fun h => hne (by rw [h])
          simp [Game.refSetPos, Game.refY, getElemD_set_ne, hij]
      | enemy j => rfl
  | enemy i =>
      cases q with
      | player j => rfl
      | bot j => rfl
      | enemy j =>
          have hij : i ≠ j := fun h => hne (by rw [h])
          simp [Game.refSetPos, Game.refY, getElemD_set_ne, hij]

theorem refSetPos_refX_self (g : Game) (r : EntityRef) (nx ny : ℚ)
    (h : g.refValid r) : (g.refSetPos r nx ny).refX r = nx := by
  cases r with
  | player i =>
      have h2 : i < g.players.length := h
      simp [Game.refSetPos, Game.refX, getElemD_set_self, h2]
  | bot i =>
      have h2 : i < g.bots.length := h
      simp [Game.refSetPos, Game.refX, getElemD_set_self, h2]
  | enemy i =>
      have h2 : i < g.enemies.length := h
      simp [Game.refSetPos, Game.refX, getElemD_set_self, h2]

theorem refSetPos_refY_self (g : Game) (r : EntityRef) (nx ny : ℚ)
    (h : g.refValid r) : (g.refSetPos r nx ny).refY r = ny := by
  cases r with
  | player i =>
      have h2 : i < g.players.length := h
      simp [Game.refSetPos, Game.refY, getElemD_set_self, h2]
  | bot i =>
      have h2 : i < g.bots.length := h
      simp [Game.refSetPos, Game.refY, getElemD_set_self, h2]
  | enemy i =>
      have h2 : i < g.enemies.length := h
      simp [Game.refSetPos, Game.refY, getElemD_set_self, h2]

theorem collidesWithTanks_false_iff (g : Game) (r : EntityRef) (x y : ℚ) :
    g.collidesWithTanks r x y = false ↔
    ∀ rr ∈ g.allRefs, rr ≠ r → g.refAlive rr = true →
      ¬ tanksOverlap x y (g.refX rr) (g.refY rr) := by
  unfold Game.collidesWithTanks
  rw [decide_eq_false_iff_not]
  simp only [not_exists, not_and]

/-- C4, amended: the movement resolver preserves the containment invariant —
    if every live entity's box is in bounds, off impassable cells, and
    disjoint from every other live entity's box, the same holds after any
    _tryMove.  (The invariant is NOT maintained by joins and respawn
    teleports, which perform no occupancy check; see the counterexample.) -/
theorem C4_tryMove_preserves_containment (g : Game) (r : EntityRef) (dx dy : ℚ)
    (h : Containment g) : Containment (g.tryMove r dx dy) := by
  rcases tryMove_cases g r dx dy with he | ⟨hbound, htile, htank, he⟩
  · rw [he]; exact h
  · rw [he]
    by_cases hvalid : g.refValid r
    · push_neg at hbound
      intro q hq halive
      rw [refSetPos_allRefs] at hq
      have halive0 : g.refAlive q = true := by
        rw [← refSetPos_refAlive g r (g.refX r + dx) (g.refY r + dy) q]
        exact halive
      by_cases heq : q = r
      · subst heq
        rw [refSetPos_refX_self g q _ _ hvalid, refSetPos_refY_self g q _ _ hvalid]
        refine ⟨⟨hbound.1, hbound.2.1, hbound.2.2.1, hbound.2.2.2⟩, ?_, ?_⟩
        · rw [refSetPos_collidesWithTiles]
          exact htile
        · rw [collidesWithTanks_false_iff]
          intro rr hrr hne hal
          rw [refSetPos_allRefs] at hrr
          rw [refSetPos_refAlive] at hal
          rw [refSetPos_refX_ne g q _ _ rr hne, refSetPos_refY_ne g q _ _ rr hne]
          exact (collidesWithTanks_false_iff g q _ _).1 htank rr hrr hne hal
      · rw [refSetPos_refX_ne g r _ _ q heq, refSetPos_refY_ne g r _ _ q heq]
        obtain ⟨hb0, ht0, hk0⟩ := h q hq halive0
        refine ⟨hb0, ?_, ?_⟩
        · rw [refSetPos_collidesWithTiles]
          exact ht0
        · rw [collidesWithTanks_false_iff]
          intro rr hrr hne hal
          rw [refSetPos_allRefs] at hrr
          rw [refSetPos_refAlive] at hal
          by_cases hrr_r : rr = r
          · subst hrr_r
            rw [refSetPos_refX_self g rr _ _ hvalid, refSetPos_refY_self g rr _ _ hvalid]
            intro hov
            exact (collidesWithTanks_false_iff g rr _ _).1 htank q hq
              (fun hqr => heq hqr) halive0 (tanksOverlap_symm hov)
          · rw [refSetPos_refX_ne g r _ _ rr hrr_r, refSetPos_refY_ne g r _ _ rr hrr_r]
            exact (collidesWithTanks_false_iff g q _ _).1 hk0 rr hrr hne hal
    · rw [refSetPos_of_not_valid g r _ _ hvalid]
      exact h

/-- C4, witness for the amended preservation: the concrete deathmatch room
    satisfies containment, and a one-pixel move of player 0 keeps it. -/
theorem C4_tryMove_preserves_containment_witness :
    Containment (gFix.tryMove (.player 0) 1 0) :=
  C4_tryMove_preserves_containment gFix (.player 0) 1 0
    (by exact of_decide_eq_true (by with_unfolding_all rfl))

theorem decSC_cdProj (dt : ℚ) (c : Combatant) :
    cdProj (decShieldCooldown dt c) = (dec1 dt c.shield, dec1 dt c.bulletCooldown) := by
  unfold cdProj decShieldCooldown dec1
  by_cases h1 : c.shield > 0 <;> by_cases h2 : c.bulletCooldown > 0 <;> simp [h1, h2]

theorem decSC_alive (dt : ℚ) (c : Combatant) :
    (decShieldCooldown dt c).alive = c.alive := by
  unfold decShieldCooldown
  by_cases h1 : c.shield > 0 <;> by_cases h2 : c.bulletCooldown > 0 <;> simp [h1, h2]

theorem decSC_inputs (dt : ℚ) (c : Combatant) :
    (decShieldCooldown dt c).inputs = c.inputs := by
  unfold decShieldCooldown
  by_cases h1 : c.shield > 0 <;> by_cases h2 : c.bulletCooldown > 0 <;> simp [h1, h2]

theorem decSC_shootTimer (dt : ℚ) (c : Combatant) :
    (decShieldCooldown dt c).shootTimer = c.shootTimer := by
  unfold decShieldCooldown
  by_cases h1 : c.shield > 0 <;> by_cases h2 : c.bulletCooldown > 0 <;> simp [h1, h2]

theorem botCountdown_cd (dt : ℚ) (b : Combatant) :
    cdProj (botCountdown dt b) = (dec1 dt b.shield, dec1 dt b.bulletCooldown) := by
  unfold cdProj botCountdown dec1
  by_cases h1 : b.shield > 0 <;> by_cases h2 : b.bulletCooldown > 0 <;> simp [h1, h2]

theorem processRespawns_nil (g : Game) (dt : ℚ) (rng : RNG) (hq : g.respawnQueue = []) :
    g.processRespawns dt rng = (g, rng) := by
  unfold Game.processRespawns
  rw [hq]
  show ({ g with respawnQueue := [] }, rng) = (g, rng)
  rw [← hq]

theorem map_proj_map {α β : Type} (l : List α) (f : α → α) (p : α → β)
    (h : ∀ c, p (f c) = p c) : (l.map f).map p = l.map p := by
  rw [List.map_map]
  exact List.map_congr_left fun c _ => h c

theorem map_proj_set {α β : Type} [Inhabited α] (l : List α) (i : ℕ) (a : α) (p : α → β)
    (h : p a = p (l.getD i default)) : (l.set i a).map p = l.map p := by
  by_cases hi : i < l.length
  · apply List.ext_getElem?
    intro n
    rw [List.getElem?_map, List.getElem?_map]
    by_cases hn : n = i
    · subst hn
      have h2 : p a = p l[n] := by rw [h, getD_eq_getElem_of_lt l n hi]
      rw [List.getElem?_set_self (by simpa using hi), List.getElem?_eq_getElem hi]
      simp [h2]
    · rw [List.getElem?_set_ne fun he => hn he.symm]
  · rw [List.set_eq_of_length_le (le_of_not_lt hi)]

theorem getD_proj_of_map_eq {β : Type} (p : Combatant → β) (l m : List Combatant)
    (h : l.map p = m.map p) (i : ℕ) : p (l.getD i default) = p (m.getD i default) := by
  have hlen : l.length = m.length := by
    have h2 := congrArg List.length h
    simpa using h2
  by_cases hi : i < l.length
  · have h1 : (l.map p)[i]? = (m.map p)[i]? := by rw [h]
    rw [List.getElem?_map, List.getElem?_map, List.getElem?_eq_getElem hi,
      List.getElem?_eq_getElem (hlen ▸ hi)] at h1
    rw [getD_eq_getElem_of_lt l i hi, getD_eq_getElem_of_lt m i (hlen ▸ hi)]
    simpa using h1
  · rw [listGetD_eq_default l i _ (le_of_not_lt hi),
      listGetD_eq_default m i _ (hlen ▸ le_of_not_lt hi)]

theorem shoot_false_of_map (l m : List Combatant)
    (hm : m.map frameP = l.map frameP) (h : ∀ p ∈ l, p.inputs.shoot = false) :
    ∀ p ∈ m, p.inputs.shoot = false := by
  intro p hp
  have h1 : m.map (fun c => c.inputs.shoot) = l.map (fun c => c.inputs.shoot) := by
    have h2 := congrArg (List.map (fun t : ℚ × ℚ × Inputs => t.2.2.shoot)) hm
    rw [List.map_map, List.map_map] at h2
    exact h2
  have h2 : p.inputs.shoot ∈ l.map fun c => c.inputs.shoot := by
    rw [← h1]
    exact List.mem_map_of_mem _ hp
  rcases List.mem_map.1 h2 with ⟨q, hq, he⟩
  rw [← he]
  exact h q hq

theorem cd_of_frame_map (l m : List Combatant) (h : l.map frameP = m.map frameP) :
    l.map cdProj = m.map cdProj := by
  have h2 := congrArg (List.map (fun t : ℚ × ℚ × Inputs => (t.1, t.2.1))) h
  rw [List.map_map, List.map_map] at h2
  exact h2

theorem timersPhase_players (g : Game) (dt : ℚ) :
    (g.timersPhase dt).players = g.players.map (decShieldCooldown dt) := rfl

theorem timersPhase_bots (g : Game) (dt : ℚ) :
    (g.timersPhase dt).bots = g.bots.map (decShieldCooldown dt) := rfl

theorem setBotAt_players (g : Game) (i : ℕ) (b : Combatant) :
    (g.setBotAt i b).players = g.players := rfl

theorem setBotAt_bots (g : Game) (i : ℕ) (b : Combatant) :
    (g.setBotAt i b).bots = g.bots.set i b := rfl

theorem refSetPos_bot_players (g : Game) (i : ℕ) (nx ny : ℚ) :
    (g.refSetPos (.bot i) nx ny).players = g.players := rfl

theorem refSetPos_bot_bots (g : Game) (i : ℕ) (nx ny : ℚ) :
    (g.refSetPos (.bot i) nx ny).bots
      = g.bots.set i { g.bots.getD i default with x := nx, y := ny } := rfl

theorem tryMove_bot_frame (g : Game) (i : ℕ) (dx dy : ℚ) :
    (g.tryMove (.bot i) dx dy).players = g.players ∧
    (g.tryMove (.bot i) dx dy).mode = g.mode ∧
    (g.tryMove (.bot i) dx dy).bots.length = g.bots.length ∧
    (∀ j, j ≠ i → (g.tryMove (.bot i) dx dy).bots.getD j default
        = g.bots.getD j default) ∧
    cdProj ((g.tryMove (.bot i) dx dy).bots.getD i default)
        = cdProj (g.bots.getD i default) ∧
    ((g.tryMove (.bot i) dx dy).bots.getD i default).shootTimer
        = (g.bots.getD i default).shootTimer := by
  rcases tryMove_eq_or g (.bot i) dx dy with h | h
  · rw [h]
    exact ⟨rfl, rfl, rfl, fun j _ => rfl, rfl, rfl⟩
  · rw [h]
    refine ⟨rfl, rfl, ?_, ?_, ?_, ?_⟩
    · rw [refSetPos_bot_bots]
      exact List.length_set ..
    · intro j hj
      rw [refSetPos_bot_bots]
      exact listGetD_set_ne _ _ _ (Ne.symm hj)
    · by_cases hi : i < g.bots.length
      · rw [refSetPos_bot_bots, listGetD_set_self _ _ _ _ hi]
        rfl
      · rw [refSetPos_bot_bots, List.set_eq_of_length_le (le_of_not_lt hi)]
    · by_cases hi : i < g.bots.length
      · rw [refSetPos_bot_bots, listGetD_set_self _ _ _ _ hi]
      · rw [refSetPos_bot_bots, List.set_eq_of_length_le (le_of_not_lt hi)]

theorem botStep_decompose (g : Game) (dt : ℚ) (i : ℕ) (rng : RNG) :
    g.botStep dt i rng =
      if (g.bots.getD i default).alive = false then (g, rng)
      else
        let bC := botCountdown dt (g.bots.getD i default)
        let g0 := g.setBotAt i bC
        let nt := nearestTarget (g0.players ++ g0.bots) bC.id bC.x bC.y
        let dec := botDecide { bC with moveTimer := bC.moveTimer + dt } nt rng
        botTail g0 dt i dec.1 nt dec.2 := rfl

theorem botDecide_frame (b1 : Combatant) (nt : Option Combatant) (rng : RNG) :
    cdProj (botDecide b1 nt rng).1 = cdProj b1 ∧
    (botDecide b1 nt rng).1.shootTimer = b1.shootTimer ∧
    (botDecide b1 nt rng).2.stream = rng.stream := by
  unfold botDecide
  dsimp only [RNG.next]
  cases nt <;> split_ifs <;> exact ⟨rfl, rfl, rfl⟩

theorem setBotAt_mode (g : Game) (i : ℕ) (b : Combatant) :
    (g.setBotAt i b).mode = g.mode := rfl

theorem botTail_cd (G : Game) (dt : ℚ) (i : ℕ) (b2 : Combatant) (nt : Option Combatant)
    (rng1 : RNG) (hlen : i < G.bots.length)
    (hst2 : b2.shootTimer + dt ≤ 1500) (hr : 0 ≤ rng1.stream rng1.pos) :
    (botTail G dt i b2 nt rng1).1.players = G.players ∧
    (botTail G dt i b2 nt rng1).1.mode = G.mode ∧
    (botTail G dt i b2 nt rng1).2.stream = rng1.stream ∧
    (botTail G dt i b2 nt rng1).1.bots.length = G.bots.length ∧
    (∀ j, j ≠ i → (botTail G dt i b2 nt rng1).1.bots.getD j default
        = G.bots.getD j default) ∧
    cdProj ((botTail G dt i b2 nt rng1).1.bots.getD i default) = cdProj b2 := by
  have htm := tryMove_bot_frame (G.setBotAt i b2) i (DX b2.dir * b2.speed)
    (DY b2.dir * b2.speed)
  unfold botTail
  dsimp only [RNG.next]
  set g3 := (G.setBotAt i b2).tryMove (.bot i) (DX b2.dir * b2.speed)
    (DY b2.dir * b2.speed) with hg3
  set b3 := g3.bots.getD i default with hb3
  have hlen3 : i < g3.bots.length := by
    rw [htm.2.2.1, setBotAt_bots, List.length_set]
    exact hlen
  have hb3st : b3.shootTimer = b2.shootTimer := by
    rw [hb3, htm.2.2.2.2.2, setBotAt_bots, listGetD_set_self _ _ _ _ hlen]
  have hb3cd : cdProj b3 = cdProj b2 := by
    rw [hb3, htm.2.2.2.2.1, setBotAt_bots, listGetD_set_self _ _ _ _ hlen]
  have hb4st : (if b3.x = b2.x ∧ b3.y = b2.y then { b3 with dir := b3.dir + 1 }
      else b3).shootTimer = b3.shootTimer := by
    split <;> rfl
  have hfire : decide (b2.shootTimer + dt > 1500 + rng1.stream rng1.pos * 1000)
      = false := by
    have h0 : 0 ≤ rng1.stream rng1.pos * 1000 := mul_nonneg hr (by norm_num)
    simp only [decide_eq_false_iff_not, not_lt]
    linarith
  have hfire2 : (decide ((if b3.x = b2.x ∧ b3.y = b2.y then { b3 with dir := b3.dir + 1 }
        else b3).shootTimer + dt > 1500 + rng1.stream rng1.pos * 1000)
      && decide ((if b3.x = b2.x ∧ b3.y = b2.y then { b3 with dir := b3.dir + 1 }
        else b3).bulletCooldown ≤ 0)) = false := by
    rw [hb4st, hb3st, hfire, Bool.false_and]
  rw [hfire2, if_neg Bool.false_ne_true]
  refine ⟨?_, ?_, rfl, ?_, ?_, ?_⟩
  · rw [setBotAt_players, htm.1, setBotAt_players]
  · rw [setBotAt_mode, htm.2.1, setBotAt_mode]
  · rw [setBotAt_bots, List.length_set, htm.2.2.1, setBotAt_bots, List.length_set]
  · intro j hj
    rw [setBotAt_bots, listGetD_set_ne _ _ _ (Ne.symm hj), htm.2.2.2.1 j hj,
      setBotAt_bots, listGetD_set_ne _ _ _ (Ne.symm hj)]
  · rw [setBotAt_bots, listGetD_set_self _ _ _ _ hlen3]
    refine Eq.trans ?_ hb3cd
    unfold cdProj
    split <;> rfl

theorem botStep_cd (g : Game) (dt : ℚ) (i : ℕ) (rng : RNG)
    (hst : (g.bots.getD i default).shootTimer + dt ≤ 1500)
    (hrng : ∀ n, 0 ≤ rng.stream n) :
    (g.botStep dt i rng).1.players = g.players ∧
    (g.botStep dt i rng).1.mode = g.mode ∧
    (g.botStep dt i rng).2.stream = rng.stream ∧
    (g.botStep dt i rng).1.bots.length = g.bots.length ∧
    (∀ j, j ≠ i → (g.botStep dt i rng).1.bots.getD j default = g.bots.getD j default) ∧
    cdProj ((g.botStep dt i rng).1.bots.getD i default) =
      (if (g.bots.getD i default).alive then
         (dec1 dt (g.bots.getD i default).shield,
          dec1 dt (g.bots.getD i default).bulletCooldown)
       else cdProj (g.bots.getD i default)) := by
  rw [botStep_decompose]
  by_cases hal : (g.bots.getD i default).alive = false
  · rw [if_pos hal]
    refine ⟨rfl, rfl, rfl, rfl, fun j _ => rfl, ?_⟩
    rw [hal]
    simp
  · rw [if_neg hal]
    have hal2 : (g.bots.getD i default).alive = true := by
      cases hb : (g.bots.getD i default).alive
      · exact absurd hb hal
      · rfl
    have hlen : i < g.bots.length := by
      by_contra hn
      rw [listGetD_eq_default _ _ _ (le_of_not_lt hn)] at hal2
      exact Bool.noConfusion hal2
    dsimp only
    set b0 := g.bots.getD i default with hb0
    set bC := botCountdown dt b0 with hbC
    set g0 := g.setBotAt i bC with hg0
    set nt := nearestTarget (g0.players ++ g0.bots) bC.id bC.x bC.y with hnt
    set dec := botDecide { bC with moveTimer := bC.moveTimer + dt } nt rng with hdec
    have hdf := botDecide_frame { bC with moveTimer := bC.moveTimer + dt } nt rng
    rw [← hdec] at hdf
    have hst2 : dec.1.shootTimer + dt ≤ 1500 := by
      rw [hdf.2.1, hbC]
      exact hst
    have hr : 0 ≤ dec.2.stream dec.2.pos := by
      rw [hdf.2.2]
      exact hrng _
    have hlen0 : i < g0.bots.length := by
      rw [hg0, setBotAt_bots, List.length_set]
      exact hlen
    have ht := botTail_cd g0 dt i dec.1 nt dec.2 hlen0 hst2 hr
    refine ⟨?_, ?_, ?_, ?_, ?_, ?_⟩
    · rw [ht.1, hg0, setBotAt_players]
    · rw [ht.2.1, hg0, setBotAt_mode]
    · rw [ht.2.2.1, hdf.2.2]
    · rw [ht.2.2.2.1, hg0, setBotAt_bots, List.length_set]
    · intro j hj
      rw [ht.2.2.2.2.1 j hj, hg0, setBotAt_bots, listGetD_set_ne _ _ _ (Ne.symm hj)]
    · rw [ht.2.2.2.2.2, hdf.1, if_pos hal2, hbC]
      exact botCountdown_cd dt b0

theorem foldBots_cd (dt : ℚ) : ∀ (l : List ℕ), l.Nodup → ∀ (g : Game) (rng : RNG),
    (∀ j ∈ l, (g.bots.getD j default).shootTimer + dt ≤ 1500) →
    (∀ n, 0 ≤ rng.stream n) →
    ((l.foldl (fun acc i => acc.1.botStep dt i acc.2) (g, rng)).1.players = g.players ∧
     (l.foldl (fun acc i => acc.1.botStep dt i acc.2) (g, rng)).1.mode = g.mode ∧
     (l.foldl (fun acc i => acc.1.botStep dt i acc.2) (g, rng)).2.stream = rng.stream ∧
     (l.foldl (fun acc i => acc.1.botStep dt i acc.2) (g, rng)).1.bots.length
        = g.bots.length ∧
     (∀ j, j ∉ l → (l.foldl (fun acc i => acc.1.botStep dt i acc.2)
          (g, rng)).1.bots.getD j default = g.bots.getD j default) ∧
     (∀ j ∈ l, cdProj ((l.foldl (fun acc i => acc.1.botStep dt i acc.2)
            (g, rng)).1.bots.getD j default) =
        if (g.bots.getD j default).alive then
          (dec1 dt (g.bots.getD j default).shield,
           dec1 dt (g.bots.getD j default).bulletCooldown)
        else cdProj (g.bots.getD j default))) := by
  intro l
  induction l with
  | nil =>
      intro _ g rng _ _
      exact ⟨rfl, rfl, rfl, rfl, fun j _ => rfl,
        fun j hj => absurd hj (List.not_mem_nil j)⟩
  | cons i rest ih =>
      intro hnd g rng hstl hrng
      rw [List.foldl_cons,
        show (g, rng).1.botStep dt i (g, rng).2
          = ((g.botStep dt i rng).1, (g.botStep dt i rng).2) from rfl]
      have hio : i ∉ rest := (List.nodup_cons.1 hnd).1
      have hnd2 : rest.Nodup := (List.nodup_cons.1 hnd).2
      have hs := botStep_cd g dt i rng (hstl i (List.mem_cons_self i rest)) hrng
      have hstl2 : ∀ j ∈ rest,
          ((g.botStep dt i rng).1.bots.getD j default).shootTimer + dt ≤ 1500 := by
        intro j hj
        have hji : j ≠ i := fun he => hio (he ▸ hj)
        rw [hs.2.2.2.2.1 j hji]
        exact hstl j (List.mem_cons_of_mem i hj)
      have hrng2 : ∀ n, 0 ≤ (g.botStep dt i rng).2.stream n := by
        intro n
        rw [hs.2.2.1]
        exact hrng n
      have hf := ih hnd2 (g.botStep dt i rng).1 (g.botStep dt i rng).2 hstl2 hrng2
      refine ⟨hf.1.trans hs.1, hf.2.1.trans hs.2.1, hf.2.2.1.trans hs.2.2.1,
        hf.2.2.2.1.trans hs.2.2.2.1, ?_, ?_⟩
      · intro j hj
        have hji : j ≠ i := fun he => hj (he ▸ List.mem_cons_self i rest)
        have hjr : j ∉ rest := fun hr => hj (List.mem_cons_of_mem i hr)
        exact (hf.2.2.2.2.1 j hjr).trans (hs.2.2.2.2.1 j hji)
      · intro j hj
        rcases List.mem_cons.1 hj with he | hr
        · subst he
          have h1 := hf.2.2.2.2.1 j hio
          exact h1 ▸ hs.2.2.2.2.2
        · have hji : j ≠ i := fun he => hio (he ▸ hr)
          have h2 := hf.2.2.2.2.2 j hr
          rw [hs.2.2.2.2.1 j hji] at h2
          exact h2

theorem updateBots_cd (g : Game) (dt : ℚ) (rng : RNG)
    (hst : ∀ b ∈ g.bots, b.shootTimer + dt ≤ 1500)
    (hrng : ∀ n, 0 ≤ rng.stream n) :
    (g.updateBots dt rng).1.players = g.players ∧
    (g.updateBots dt rng).1.mode = g.mode ∧
    (g.updateBots dt rng).2.stream = rng.stream ∧
    (g.updateBots dt rng).1.bots.map cdProj
      = g.bots.map fun c =>
          if c.alive then (dec1 dt c.shield, dec1 dt c.bulletCooldown) else cdProj c := by
  unfold Game.updateBots
  have h := foldBots_cd dt (List.range g.bots.length) (List.nodup_range _) g rng
    (fun j hj => by
      rw [getD_eq_getElem_of_lt _ _ (List.mem_range.1 hj)]
      exact hst _ (List.getElem_mem _)) hrng
  refine ⟨h.1, h.2.1, h.2.2.1, ?_⟩
  apply List.ext_getElem?
  intro n
  rw [List.getElem?_map, List.getElem?_map]
  by_cases hn : n < g.bots.length
  · have hn' := hn
    rw [← h.2.2.2.1] at hn'
    rw [List.getElem?_eq_getElem hn', List.getElem?_eq_getElem hn]
    have h6 := h.2.2.2.2.2 n (List.mem_range.2 hn)
    rw [getD_eq_getElem_of_lt _ _ hn', getD_eq_getElem_of_lt _ _ hn] at h6
    exact congrArg some h6
  · have hn2 : ((List.range g.bots.length).foldl
        (fun acc i => acc.1.botStep dt i acc.2) (g, rng)).1.bots.length ≤ n := by
      rw [h.2.2.2.1]
      exact le_of_not_lt hn
    rw [List.getElem?_eq_none hn2, List.getElem?_eq_none (le_of_not_lt hn)]
    rfl

theorem shoot_getD_of_map (l m : List Combatant)
    (h : l.map frameP = m.map frameP) (i : ℕ) :
    (l.getD i default).inputs.shoot = (m.getD i default).inputs.shoot := by
  have hfr := getD_proj_of_map_eq frameP l m h i
  exact congrArg (fun t : ℚ × ℚ × Inputs => t.2.2.shoot) hfr

theorem tryMove_player_frameP (g : Game) (i : ℕ) (dx dy : ℚ) :
    (g.tryMove (.player i) dx dy).players.map frameP = g.players.map frameP ∧
    (g.tryMove (.player i) dx dy).bots = g.bots ∧
    (g.tryMove (.player i) dx dy).mode = g.mode := by
  rcases tryMove_eq_or g (.player i) dx dy with h | h
  · rw [h]
    exact ⟨rfl, rfl, rfl⟩
  · rw [h]
    refine ⟨?_, rfl, rfl⟩
    rw [refSetPos_player_players]
    exact map_proj_set _ _ _ _ rfl

theorem stepMove_frameP (g : Game) (i : ℕ) (q : Combatant) (dx dy : ℚ)
    (hq : frameP q = frameP (g.players.getD i default)) :
    ((g.setPlayerAt i q).tryMove (.player i) dx dy).players.map frameP
        = g.players.map frameP ∧
    ((g.setPlayerAt i q).tryMove (.player i) dx dy).bots = g.bots ∧
    ((g.setPlayerAt i q).tryMove (.player i) dx dy).mode = g.mode := by
  have h1 := tryMove_player_frameP (g.setPlayerAt i q) i dx dy
  refine ⟨h1.1.trans ?_, h1.2.1, h1.2.2⟩
  rw [setPlayerAt_players]
  exact map_proj_set _ _ _ _ hq

theorem playerStep_frameP (g : Game) (i : ℕ)
    (hsh : ∀ p ∈ g.players, p.inputs.shoot = false) :
    (g.playerStep i).players.map frameP = g.players.map frameP ∧
    (g.playerStep i).bots = g.bots ∧
    (g.playerStep i).mode = g.mode := by
  have hshi : (g.players.getD i default).inputs.shoot = false := by
    by_cases hi : i < g.players.length
    · rw [getD_eq_getElem_of_lt g.players i hi]
      exact hsh _ (List.getElem_mem hi)
    · rw [listGetD_eq_default _ _ _ (le_of_not_lt hi)]
      rfl
  unfold Game.playerStep
  dsimp only
  by_cases hal : (g.players.getD i default).alive = false
  · rw [if_pos hal]
    exact ⟨rfl, rfl, rfl⟩
  · rw [if_neg hal]
    by_cases hu : (g.players.getD i default).inputs.up = true
    · rw [if_pos hu]
      have h1 := stepMove_frameP g i { g.players.getD i default with dir := DIR_UP }
        0 (-(g.players.getD i default).speed) rfl
      rw [(shoot_getD_of_map _ _ h1.1 i).trans hshi, Bool.false_and,
        if_neg Bool.false_ne_true]
      refine ⟨?_, h1.2.1, h1.2.2⟩
      rw [setPlayerAt_players]
      refine Eq.trans (map_proj_set _ _ _ _ ?_) h1.1
      rfl
    · rw [if_neg hu]
      by_cases hd : (g.players.getD i default).inputs.down = true
      · rw [if_pos hd]
        have h1 := stepMove_frameP g i { g.players.getD i default with dir := DIR_DOWN }
          0 ((g.players.getD i default).speed) rfl
        rw [(shoot_getD_of_map _ _ h1.1 i).trans hshi, Bool.false_and,
          if_neg Bool.false_ne_true]
        refine ⟨?_, h1.2.1, h1.2.2⟩
        rw [setPlayerAt_players]
        refine Eq.trans (map_proj_set _ _ _ _ ?_) h1.1
        rfl
      · rw [if_neg hd]
        by_cases hl : (g.players.getD i default).inputs.left = true
        · rw [if_pos hl]
          have h1 := stepMove_frameP g i
            { g.players.getD i default with dir := DIR_LEFT }
            (-(g.players.getD i default).speed) 0 rfl
          rw [(shoot_getD_of_map _ _ h1.1 i).trans hshi, Bool.false_and,
            if_neg Bool.false_ne_true]
          refine ⟨?_, h1.2.1, h1.2.2⟩
          rw [setPlayerAt_players]
          refine Eq.trans (map_proj_set _ _ _ _ ?_) h1.1
          rfl
        · rw [if_neg hl]
          by_cases hr : (g.players.getD i default).inputs.right = true
          · rw [if_pos hr]
            have h1 := stepMove_frameP g i
              { g.players.getD i default with dir := DIR_RIGHT }
              ((g.players.getD i default).speed) 0 rfl
            rw [(shoot_getD_of_map _ _ h1.1 i).trans hshi, Bool.false_and,
              if_neg Bool.false_ne_true]
            refine ⟨?_, h1.2.1, h1.2.2⟩
            rw [setPlayerAt_players]
            refine Eq.trans (map_proj_set _ _ _ _ ?_) h1.1
            rfl
          · rw [if_neg hr]
            rw [hshi, Bool.false_and, if_neg Bool.false_ne_true]
            refine ⟨?_, rfl, rfl⟩
            rw [setPlayerAt_players]
            refine map_proj_set _ _ _ _ ?_
            rfl

theorem foldPlayers_frameP : ∀ (l : List ℕ) (g : Game),
    (∀ p ∈ g.players, p.inputs.shoot = false) →
    ((l.foldl (fun acc i => acc.playerStep i) g).players.map frameP
        = g.players.map frameP ∧
     (l.foldl (fun acc i => acc.playerStep i) g).bots = g.bots ∧
     (l.foldl (fun acc i => acc.playerStep i) g).mode = g.mode) := by
  intro l
  induction l with
  | nil =>
      intro g _
      exact ⟨rfl, rfl, rfl⟩
  | cons i rest ih =>
      intro g h
      rw [List.foldl_cons]
      have h1 := playerStep_frameP g i h
      have h2 := shoot_false_of_map g.players (g.playerStep i).players h1.1 h
      have h3 := ih (g.playerStep i) h2
      exact ⟨h3.1.trans h1.1, h3.2.1.trans h1.2.1, h3.2.2.trans h1.2.2⟩

theorem updatePlayers_frameP (g : Game)
    (hsh : ∀ p ∈ g.players, p.inputs.shoot = false) :
    g.updatePlayers.players.map frameP = g.players.map frameP ∧
    g.updatePlayers.bots = g.bots ∧
    g.updatePlayers.mode = g.mode :=
  foldPlayers_frameP (List.range g.players.length) g hsh

theorem dmKill_cdm (g : Game) (v k : String) :
    (g.dmKill v k).players.map cdProj = g.players.map cdProj ∧
    (g.dmKill v k).bots.map cdProj = g.bots.map cdProj ∧
    (g.dmKill v k).mode = g.mode := by
  unfold Game.dmKill Game.mapEntityById
  dsimp only
  split_ifs with hk
  · refine ⟨Eq.trans (map_proj_map _ _ _ ?_) (map_proj_map _ _ _ ?_),
      Eq.trans (map_proj_map _ _ _ ?_) (map_proj_map _ _ _ ?_), rfl⟩ <;>
      (intro c; unfold cdProj; split <;> rfl)
  · refine ⟨map_proj_map _ _ _ ?_, map_proj_map _ _ _ ?_, rfl⟩ <;>
      (intro c; unfold cdProj; split <;> rfl)

theorem resolveDMHit_cdm (g : Game) (b : Bullet) :
    (g.resolveDMHit b).1.players.map cdProj = g.players.map cdProj ∧
    (g.resolveDMHit b).1.bots.map cdProj = g.bots.map cdProj ∧
    (g.resolveDMHit b).1.mode = g.mode := by
  unfold Game.resolveDMHit
  cases h : (g.players ++ g.bots).find? (dmEligible b) with
  | none => exact ⟨rfl, rfl, rfl⟩
  | some t => exact dmKill_cdm g t.id b.ownerId

theorem bulletTilePhase_mode (g : Game) (b : Bullet) :
    ∀ out, g.bulletTilePhase b = some out → out.1.mode = g.mode := by
  intro out hout
  unfold Game.bulletTilePhase at hout
  dsimp only at hout
  by_cases hrange : (0 ≤ bulletCellX b ∧ 0 ≤ bulletCellY b ∧
      bulletCellX b < MAP_COLS ∧ bulletCellY b < MAP_ROWS)
  · rw [if_pos hrange] at hout
    split at hout
    · injection hout with h
      exact h ▸ rfl
    · injection hout with h
      exact h ▸ rfl
    · rcases Decidable.em (g.mode = Mode.coop) with hm | hm
      · rw [if_pos hm] at hout
        injection hout with h
        exact h ▸ rfl
      · rw [if_neg hm] at hout
        exact absurd hout (by simp)
    · exact absurd hout (by simp)
  · rw [if_neg hrange] at hout
    exact absurd hout (by simp)

theorem bulletStep_cdm (g : Game) (b : Bullet) (hdm : g.isDM = true) :
    (g.bulletStep b).1.players.map cdProj = g.players.map cdProj ∧
    (g.bulletStep b).1.bots.map cdProj = g.bots.map cdProj ∧
    (g.bulletStep b).1.mode = g.mode := by
  unfold Game.bulletStep
  dsimp only
  by_cases hb : bulletOut (movedBullet b) = true
  · rw [if_pos hb]
    exact ⟨rfl, rfl, rfl⟩
  · rw [if_neg hb]
    cases htp : g.bulletTilePhase (movedBullet b) with
    | some out =>
        simp only [htp]
        have h := bulletTilePhase_entities g (movedBullet b) out htp
        have hm := bulletTilePhase_mode g (movedBullet b) out htp
        rw [h.1, h.2]
        exact ⟨rfl, rfl, hm⟩
    | none =>
        simp only [htp]
        rw [if_pos hdm]
        have h := resolveDMHit_cdm g (movedBullet b)
        cases hhit : (g.resolveDMHit (movedBullet b)).2 <;>
          simp only [hhit, Bool.false_eq_true, if_true, if_false] <;>
          exact h

theorem updateBulletsGo_cdm (g : Game) (hdm : g.isDM = true) :
    ∀ bs : List Bullet,
      (g.updateBulletsGo bs).1.players.map cdProj = g.players.map cdProj ∧
      (g.updateBulletsGo bs).1.bots.map cdProj = g.bots.map cdProj ∧
      (g.updateBulletsGo bs).1.mode = g.mode := by
  intro bs
  induction bs with
  | nil => exact ⟨rfl, rfl, rfl⟩
  | cons b rest ih =>
      have hdm1 : (g.updateBulletsGo rest).1.isDM = true := by
        show (g.updateBulletsGo rest).1.mode.isDM = true
        rw [ih.2.2]
        exact hdm
      have hstep := bulletStep_cdm (g.updateBulletsGo rest).1 b hdm1
      have hgo : g.updateBulletsGo (b :: rest)
          = (match (g.updateBulletsGo rest).1.bulletStep b with
             | (g2, some b2) => (g2, b2 :: (g.updateBulletsGo rest).2)
             | (g2, none) => (g2, (g.updateBulletsGo rest).2)) := rfl
      have hfst : (g.updateBulletsGo (b :: rest)).1
          = ((g.updateBulletsGo rest).1.bulletStep b).1 := by
        rw [hgo]
        rcases hsb : (g.updateBulletsGo rest).1.bulletStep b with ⟨g2, ob⟩
        cases ob <;> rfl
      rw [hfst]
      exact ⟨hstep.1.trans ih.1, hstep.2.1.trans ih.2.1, hstep.2.2.trans ih.2.2⟩

theorem updateBullets_cdm (g : Game) (hdm : g.isDM = true) :
    g.updateBullets.players.map cdProj = g.players.map cdProj ∧
    g.updateBullets.bots.map cdProj = g.bots.map cdProj ∧
    g.updateBullets.mode = g.mode :=
  updateBulletsGo_cdm g hdm g.bullets

theorem checkGameOver_entities (g : Game) :
    g.checkGameOver.players = g.players ∧ g.checkGameOver.bots = g.bots := by
  unfold Game.checkGameOver
  split_ifs with h1 h2 h3 h4 <;>
    first
      | exact ⟨rfl, rfl⟩
      | (split <;> exact ⟨rfl, rfl⟩)

/-- C1, amended: in a deathmatch room (either deathmatch mode) that is not
    over, with an empty respawn queue, no player firing, every bot's shoot
    timer below the firing threshold and a nonnegative randomness stream, one
    tick(dt) advances every player's shield and fire-cooldown countdowns by
    exactly one dt-decrement (applied when positive), while every LIVE bot's
    countdowns receive TWO dt-decrements — one in the tick timer loop and a
    second inside _updateBots — and a dead bot's receive one. -/
theorem C1_tick_countdowns (g : Game) (dt : ℚ) (rng : RNG)
    (hgo : g.gameOver = false)
    (hdm : g.isDM = true)
    (hq : g.respawnQueue = [])
    (hsh : ∀ p ∈ g.players, p.inputs.shoot = false)
    (hst : ∀ b ∈ g.bots, b.shootTimer + dt ≤ 1500)
    (hrng : ∀ n, 0 ≤ rng.stream n) :
    (g.tick dt rng).1.players.map cdProj
        = g.players.map (fun c => (dec1 dt c.shield, dec1 dt c.bulletCooldown)) ∧
    (g.tick dt rng).1.bots.map cdProj
        = g.bots.map (fun c =>
            if c.alive then
              (dec1 dt (dec1 dt c.shield), dec1 dt (dec1 dt c.bulletCooldown))
            else (dec1 dt c.shield, dec1 dt c.bulletCooldown)) := by
  have hsh1 : ∀ p ∈ (g.timersPhase dt).players, p.inputs.shoot = false := by
    intro p hp
    rw [timersPhase_players] at hp
    rcases List.mem_map.1 hp with ⟨q, hq2, rfl⟩
    rw [decSC_inputs]
    exact hsh q hq2
  have hup := updatePlayers_frameP (g.timersPhase dt) hsh1
  have hst3 : ∀ b ∈ (g.timersPhase dt).updatePlayers.bots,
      b.shootTimer + dt ≤ 1500 := by
    intro b hb
    rw [hup.2.1, timersPhase_bots] at hb
    rcases List.mem_map.1 hb with ⟨q, hq2, rfl⟩
    rw [decSC_shootTimer]
    exact hst q hq2
  have hub := updateBots_cd (g.timersPhase dt).updatePlayers dt rng hst3 hrng
  have hdm4 : ((g.timersPhase dt).updatePlayers.updateBots dt rng).1.isDM = true := by
    show ((g.timersPhase dt).updatePlayers.updateBots dt rng).1.mode.isDM = true
    rw [hub.2.1, hup.2.2]
    exact hdm
  have hbl := updateBullets_cdm
    ((g.timersPhase dt).updatePlayers.updateBots dt rng).1 hdm4
  have hcg := checkGameOver_entities
    ((g.timersPhase dt).updatePlayers.updateBots dt rng).1.updateBullets
  unfold Game.tick
  dsimp only
  rw [if_neg (show ¬ g.gameOver = true by simp [hgo]),
    if_pos (show (g.timersPhase dt).isDM = true from hdm),
    processRespawns_nil (g.timersPhase dt) dt rng
      (show (g.timersPhase dt).respawnQueue = [] from hq)]
  dsimp only
  rw [if_pos (show (g.timersPhase dt).updatePlayers.isDM = true by
    show (g.timersPhase dt).updatePlayers.mode.isDM = true
    rw [hup.2.2]
    exact hdm)]
  constructor
  · rw [hcg.1, hbl.1, hub.1, cd_of_frame_map _ _ hup.1, timersPhase_players,
      List.map_map]
    exact List.map_congr_left fun c _ => decSC_cdProj dt c
  · rw [hcg.2, hbl.2.1, hub.2.2.2, hup.2.1, timersPhase_bots, List.map_map]
    apply List.map_congr_left
    intro c _
    have h1 := decSC_cdProj dt c
    have hs : (decShieldCooldown dt c).shield = dec1 dt c.shield :=
      congrArg Prod.fst h1
    have hcd : (decShieldCooldown dt c).bulletCooldown = dec1 dt c.bulletCooldown :=
      congrArg Prod.snd h1
    show (if (decShieldCooldown dt c).alive = true then
        (dec1 dt (decShieldCooldown dt c).shield,
         dec1 dt (decShieldCooldown dt c).bulletCooldown)
      else cdProj (decShieldCooldown dt c)) = _
    by_cases hca : c.alive = true
    · simp [decSC_alive, hca, hs, hcd]
    · simp [decSC_alive, hca, decSC_cdProj]

/-- C1, amended, witness: the countdown equation instantiated on the
    deathmatch-with-bots room right after start() with one idle player, at
    tick(33) under the zero randomness stream. -/
theorem C1_tick_countdowns_witness :
    gC1.gameOver = false ∧ gC1.isDM = true ∧ gC1.respawnQueue = [] ∧
    (gC1.tick 33 rngZero).1.players.map cdProj
        = gC1.players.map (fun c => (dec1 33 c.shield, dec1 33 c.bulletCooldown)) ∧
    (gC1.tick 33 rngZero).1.bots.map cdProj
        = gC1.bots.map (fun c =>
            if c.alive then
              (dec1 33 (dec1 33 c.shield), dec1 33 (dec1 33 c.bulletCooldown))
            else (dec1 33 c.shield, dec1 33 c.bulletCooldown)) := by
  have hgo : gC1.gameOver = false := by with_unfolding_all rfl
  have hdm : gC1.isDM = true := by with_unfolding_all rfl
  have hq : gC1.respawnQueue = [] := by with_unfolding_all rfl
  have hsh : ∀ p ∈ gC1.players, p.inputs.shoot = false := by
    have hm : gC1.players.map (fun p => p.inputs.shoot) = [false] := by
      with_unfolding_all rfl
    intro p hp
    have h2 := List.mem_map_of_mem (fun p : Combatant => p.inputs.shoot) hp
    rw [hm] at h2
    simpa using h2
  have hst : ∀ b ∈ gC1.bots, b.shootTimer + 33 ≤ 1500 := by
    have hm : gC1.bots.map (fun b => decide (b.shootTimer + 33 ≤ 1500))
        = [true, true, true, true] := by
      with_unfolding_all rfl
    intro b hb
    have h2 := List.mem_map_of_mem
      (fun b : Combatant => decide (b.shootTimer + 33 ≤ 1500)) hb
    rw [hm] at h2
    have h3 : decide (b.shootTimer + 33 ≤ 1500) = true := by
      simpa using h2
    exact of_decide_eq_true h3
  have hrng : ∀ n, 0 ≤ rngZero.stream n := fun n => le_refl 0
  have h := C1_tick_countdowns gC1 33 rngZero hgo hdm hq hsh hst hrng
  exact ⟨hgo, hdm, hq, h.1, h.2⟩

end MultiBattle
